import Mathlib

/-!
# gencgc-internal.h: page table, space classification, pinning, regions

A shallow embedding of the inline functions and predicate macros of
`src/runtime/gencgc-internal.h`, followed by theorems about them.

Conventions of the embedding:

* addresses, `lispobj` words and `uintptr_t` values are natural numbers, with
  `% 2 ^ N_WORD_BITS` written out where the C arithmetic wraps;
* `page_index_t` and `generation_index_t` are signed, hence `Int`;
* the globals the header reads or writes are the fields of `GcState`;
* a failed `gc_dcheck` is the result `none`.
-/

namespace Gencgc

/-! ## Build configuration -/

/-- Compile-time constants and helper routines that the header uses but does not
define.  `cc_PIN_GRANULARITY_LISPOBJ` is the value given for
`PIN_GRANULARITY_LISPOBJ` on the cc invocation, if any; `RETURN_PC_WIDETAG` is
`none` on a backend that has no such widetag; `gc_dcheck_active` tells whether
`gc_dcheck` expands to an assertion (debug build) or to nothing.  The four
functions stand for `native_pointer`, `widetag_of`, `fun_code_header` (which
reads the heap) and `make_lispobj`. -/
structure Build where
  N_WORD_BITS : Nat
  DYNAMIC_SPACE_START : Nat
  GENCGC_CARD_BYTES : Nat
  GENCGC_IS_PRECISE : Nat
  cc_PIN_GRANULARITY_LISPOBJ : Option Int
  RETURN_PC_WIDETAG : Option Nat
  OTHER_POINTER_LOWTAG : Nat
  gc_dcheck_active : Bool
  native_pointer : Nat → Nat
  widetag_of : Nat → Nat
  fun_code_header : (Nat → Nat) → Nat → Nat
  make_lispobj : Nat → Nat → Nat

/-- Lines 59-61: `#ifndef PIN_GRANULARITY_LISPOBJ` / `#define ... 1`.  The result
is the definition in force below line 61: `none` would mean "not defined". -/
def PIN_GRANULARITY_LISPOBJ (b : Build) : Option Int :=
  match b.cc_PIN_GRANULARITY_LISPOBJ with
  | some v => some v
  | none => some 1

/-! ## Data model -/

/-- One entry of the page table (`struct page`).  The one-bit fields are
booleans; `allocated` is the four-bit field, `0` meaning free. -/
structure page where
  scan_start_offset_ : Nat
  bytes_used_ : Nat
  allocated : Nat
  write_protected : Bool
  write_protected_cleared : Bool
  dont_move : Bool
  large_object : Bool
  gen : Int

/-- Modelled from the spec: `struct hopscotch_table` (hopscotch.h is not among
the sources).  A set of tagged references together with the stored element
count that `pinned_p` reads; nothing ties `count` to `keys` here. -/
structure hopscotch_table where
  count : Int
  keys : List Nat

/-- Modelled from the spec: `hopscotch_containsp`, membership of a key in the
pinned-objects set. -/
def hopscotch_containsp (ht : hopscotch_table) (key : Nat) : Bool :=
  decide (key ∈ ht.keys)

/-- Modelled from the spec: `struct alloc_region` (gencgc-alloc-region.h is not
among the sources): the window `start_addr`, `free_pointer`, `end_addr` and the
`last_page` hint. -/
structure alloc_region where
  free_pointer : Nat
  end_addr : Nat
  last_page : Int
  start_addr : Nat

/-- The process-wide state the header works on.  `page_table` is a C pointer
indexed without bounds check, hence a total map; `regions` maps the address of
an `alloc_region` to its contents; `weak_next` maps the address of a
`weak_pointer` to its `next` slot and `weak_pointers` is the list head, with `0`
for the null pointer; `heap` gives the word stored at an address. -/
structure GcState where
  page_table : Int → page
  page_table_pages : Int
  from_space : Int
  new_space : Int
  pinned_objects : hopscotch_table
  heap : Nat → Nat
  regions : Nat → alloc_region
  weak_pointers : Nat
  weak_next : Nat → Nat

/-! ## Machine arithmetic -/

/-- Subtraction of two `uintptr_t` values. -/
def uintptr_sub (w x y : Nat) : Nat :=
  (x % 2 ^ w + (2 ^ w - y % 2 ^ w)) % 2 ^ w

/-- Conversion of a `uintptr_t` value to the signed `page_index_t`.  The typedef
is in gc.h, which is not among the sources; it is taken to be the signed integer
type of pointer width, and the conversion is two's complement. -/
def to_page_index_t (w x : Nat) : Int :=
  if x % 2 ^ w < 2 ^ (w - 1) then ((x % 2 ^ w : Nat) : Int)
  else ((x % 2 ^ w : Nat) : Int) - ((2 ^ w : Nat) : Int)

/-! ## Predicates -/

/-- The macro `compacting_p()`: `(from_space>=0)`. -/
def compacting_p (s : GcState) : Bool :=
  decide (0 ≤ s.from_space)

/-- The function `find_page_index`: the page index of an address, `-1` on
failure. -/
def find_page_index (b : Build) (s : GcState) (addr : Nat) : Int :=
  if b.DYNAMIC_SPACE_START ≤ addr then
    let index : Int := to_page_index_t b.N_WORD_BITS
      (uintptr_sub b.N_WORD_BITS addr b.DYNAMIC_SPACE_START / b.GENCGC_CARD_BYTES)
    if index < s.page_table_pages then index else -1
  else -1

/-- Modelled from the spec: `page_address` is only declared in the header (line
28).  The page-to-address mapping sends page `i` to the first byte of its card,
`DYNAMIC_SPACE_START + i * GENCGC_CARD_BYTES`. -/
def page_address (b : Build) (i : Int) : Nat :=
  Int.toNat ((b.DYNAMIC_SPACE_START : Int) + i * (b.GENCGC_CARD_BYTES : Int))

/-- The macro `page_has_smallobj_pins(page)`:
`page_table[page].dont_move && !page_table[page].large_object`. -/
def page_has_smallobj_pins (s : GcState) (page : Int) : Bool :=
  (s.page_table page).dont_move && !(s.page_table page).large_object

/-- What `pinned_p` touches besides the page table and the stored count: a call
of `hopscotch_containsp` on the pinned-objects table, or the read of the header
word `*native_pointer(obj)`.  Reads that `fun_code_header` performs on its own
are not itemised; they follow a header read. -/
inductive Access where
  | containsp (key : Nat)
  | header (addr : Nat)
  deriving DecidableEq, Repr

/-- The reference that the precise `pinned_p` looks up (lines 216-221): with
`RETURN_PC_WIDETAG` defined, an object whose header has that widetag is replaced
by `make_lispobj(fun_code_header(native_pointer(obj)), OTHER_POINTER_LOWTAG)`. -/
def pin_lookup_key (b : Build) (s : GcState) (obj : Nat) : Nat :=
  match b.RETURN_PC_WIDETAG with
  | some t =>
    if b.widetag_of (s.heap (b.native_pointer obj)) = t then
      b.make_lispobj (b.fun_code_header s.heap (b.native_pointer obj)) b.OTHER_POINTER_LOWTAG
    else obj
  | none => obj

/-- The header reads on the way to the lookup of the precise `pinned_p`: one
read of `*native_pointer(obj)` when `RETURN_PC_WIDETAG` is defined. -/
def pin_header_reads (b : Build) (obj : Nat) : List Access :=
  match b.RETURN_PC_WIDETAG with
  | some _ => [Access.header (b.native_pointer obj)]
  | none => []

/-- The function `pinned_p` (lines 199-227) with the accesses it performs, in
order.  `none` is a failed `gc_dcheck(compacting_p())`.  When
`PIN_GRANULARITY_LISPOBJ` is not defined, `pinned_p` is the macro `(0)`. -/
def pinned_p_run (b : Build) (s : GcState) (obj : Nat) (page : Int) :
    Option (Bool × List Access) :=
  match PIN_GRANULARITY_LISPOBJ b with
  | none => some (false, [])
  | some _ =>
    if b.gc_dcheck_active && !compacting_p s then none
    else if b.GENCGC_IS_PRECISE = 0 then
      if page_has_smallobj_pins s page then
        some (hopscotch_containsp s.pinned_objects obj, [Access.containsp obj])
      else some (false, [])
    else
      if s.pinned_objects.count = 0 ∨ page_has_smallobj_pins s page = false then
        some (false, [])
      else
        some (hopscotch_containsp s.pinned_objects (pin_lookup_key b s obj),
          pin_header_reads b obj ++ [Access.containsp (pin_lookup_key b s obj)])

/-- The value returned by `pinned_p`. -/
def pinned_p (b : Build) (s : GcState) (obj : Nat) (page : Int) : Option Bool :=
  (pinned_p_run b s obj page).map Prod.fst

/-- The function `from_space_p` (lines 232-240). -/
def from_space_p (b : Build) (s : GcState) (obj : Nat) : Option Bool :=
  if b.gc_dcheck_active && !compacting_p s then none
  else
    let page_index := find_page_index b s obj
    if 0 ≤ page_index ∧ (s.page_table page_index).gen = s.from_space then
      (pinned_p b s obj page_index).map (fun r => !r)
    else some false

/-- The function `new_space_p` (lines 242-247). -/
def new_space_p (b : Build) (s : GcState) (obj : Nat) : Option Bool :=
  if b.gc_dcheck_active && !compacting_p s then none
  else
    let page_index := find_page_index b s obj
    some (decide (0 ≤ page_index ∧ (s.page_table page_index).gen = s.new_space))

/-! ## Allocation regions -/

/-- The function `gc_set_region_empty` (lines 166-171) on the region stored at
address `region`: the chained assignment stores `0` into `end_addr`, then
`free_pointer`, then `start_addr`. -/
def gc_set_region_empty (s : GcState) (region : Nat) : GcState :=
  let s1 := { s with
    regions := Function.update s.regions region { (s.regions region) with end_addr := 0 } }
  let s2 := { s1 with
    regions := Function.update s1.regions region { (s1.regions region) with free_pointer := 0 } }
  { s2 with
    regions := Function.update s2.regions region { (s2.regions region) with start_addr := 0 } }

/-- The function `gc_init_region` (lines 173-177). -/
def gc_init_region (s : GcState) (region : Nat) : GcState :=
  let s1 := { s with
    regions := Function.update s.regions region { (s.regions region) with last_page := 0 } }
  gc_set_region_empty s1 region

/-! ## Sample configurations and states -/

/-- A sample 64-bit build with 4096-byte cards; identity stand-ins for the
helper routines except `make_lispobj`, which adds the lowtag. -/
def sampleBuild (precise : Nat) (debug : Bool) : Build where
  N_WORD_BITS := 64
  DYNAMIC_SPACE_START := 0x1000000000
  GENCGC_CARD_BYTES := 4096
  GENCGC_IS_PRECISE := precise
  cc_PIN_GRANULARITY_LISPOBJ := none
  RETURN_PC_WIDETAG := some 0x36
  OTHER_POINTER_LOWTAG := 15
  gc_dcheck_active := debug
  native_pointer := fun obj => obj - obj % 16
  widetag_of := fun hdr => hdr % 256
  fun_code_header := fun heap fn => fn - 8 * (heap fn / 256)
  make_lispobj := fun ptr lowtag => ptr + lowtag

/-- A free page: every field zero. -/
def freePage : page where
  scan_start_offset_ := 0
  bytes_used_ := 0
  allocated := 0
  write_protected := false
  write_protected_cleared := false
  dont_move := false
  large_object := false
  gen := 0

/-- Page 0 of the end-to-end scenario: boxed data, `gen = 1`, 128 bytes used, no
flag set. -/
def boxedPage : page where
  scan_start_offset_ := 0
  bytes_used_ := 128
  allocated := 1
  write_protected := false
  write_protected_cleared := false
  dont_move := false
  large_object := false
  gen := 1

/-- An empty region. -/
def emptyRegion : alloc_region where
  free_pointer := 0
  end_addr := 0
  last_page := 0
  start_addr := 0

/-- A sample state: `pages` pages, page 0 boxed with `gen = 1`, the others free,
an empty pinned-objects table, no weak pointer, all regions empty. -/
def sampleState (pages fromSpace newSpace : Int) : GcState where
  page_table := fun i => if i = 0 then boxedPage else freePage
  page_table_pages := pages
  from_space := fromSpace
  new_space := newSpace
  pinned_objects := { count := 0, keys := [] }
  heap := fun _ => 0
  regions := fun _ => emptyRegion
  weak_pointers := 0
  weak_next := fun _ => 0

/-- The state `s` with another pinned-objects table and other `dont_move` and
`large_object` flags on every page; everything else is as in `s`. -/
def with_pins (s : GcState) (pins : hopscotch_table) (dm lo : Int → Bool) : GcState :=
  { s with
    pinned_objects := pins
    page_table := fun p => { (s.page_table p) with dont_move := dm p, large_object := lo p } }

/-- Page 0 of the sample state with its `dont_move` bit set. -/
def pinnedPage : page :=
  { boxedPage with dont_move := true }

/-- A two-page state whose page 0 (boxed, `gen = 1`) has `dont_move` set and
whose pinned-objects table holds the single reference `key`. -/
def pinnedState (fromSpace newSpace : Int) (key : Nat) : GcState :=
  { sampleState 2 fromSpace newSpace with
    page_table := fun i => if i = 0 then pinnedPage else freePage
    pinned_objects := { count := 1, keys := [key] } }

/-- The state `pinnedState 1 2 0x100000001F` with a return-pc header (widetag
`0x36`, header value 2) stored at address `0x1000000020`: the code object that
owns it starts two words below and its tagged reference `0x100000001F` is the
pinned one. -/
def returnPcState : GcState :=
  { pinnedState 1 2 0x100000001F with
    heap := fun a => if a = 0x1000000020 then 0x236 else 0 }

/-- A one-page state in which every region holds leftover values: an open
window and a negative `last_page`. -/
def garbageState : GcState :=
  { sampleState 1 1 2 with
    regions := fun _ =>
      { free_pointer := 0x1000000040, end_addr := 0x1000001000, last_page := -7,
        start_addr := 0x1000000000 } }

/-! ## Closing a region -/

/-- The function `ensure_region_closed` (lines 159-164) together with the calls
of the external `gc_close_region` it makes, each recorded with its arguments
`(page_type_flag, alloc_region)`.  `gc_close_region` is only declared in the
header (line 158) and is a parameter here. -/
def ensure_region_closed_run (gc_close_region : GcState → Int → Nat → GcState)
    (s : GcState) (page_type_flag : Int) (alloc_region : Nat) :
    GcState × List (Int × Nat) :=
  if (s.regions alloc_region).start_addr ≠ 0 then
    (gc_close_region s page_type_flag alloc_region, [(page_type_flag, alloc_region)])
  else (s, [])

/-- The state that `ensure_region_closed` leaves. -/
def ensure_region_closed (gc_close_region : GcState → Int → Nat → GcState)
    (s : GcState) (page_type_flag : Int) (alloc_region : Nat) : GcState :=
  (ensure_region_closed_run gc_close_region s page_type_flag alloc_region).1

/-- Modelled from the spec: the part of the contract of the external
`gc_close_region` that closing relies on.  A region is open exactly when its
`start_addr` is non-zero, and the close operation leaves the region it is given
closed (Empty, only `last_page` surviving), so its `start_addr` is 0
afterwards. -/
def closes_region (gc_close_region : GcState → Int → Nat → GcState) : Prop :=
  ∀ (s : GcState) (page_type_flag : Int) (alloc_region : Nat),
    ((gc_close_region s page_type_flag alloc_region).regions alloc_region).start_addr = 0

/-- Modelled from the spec: a stand-in for the external `gc_close_region`, used
on sample states only.  It finalizes the page that holds the start of the
region (`bytes_used` from the free pointer, open-region bit of `allocated`
cleared) and then empties the region. -/
def sampleClose (b : Build) (s : GcState) (_page_type_flag : Int) (alloc_region : Nat) :
    GcState :=
  gc_set_region_empty
    { s with
      page_table := Function.update s.page_table
        (find_page_index b s (s.regions alloc_region).start_addr)
        { (s.page_table (find_page_index b s (s.regions alloc_region).start_addr)) with
          bytes_used_ := (s.regions alloc_region).free_pointer
            - (s.regions alloc_region).start_addr
          allocated :=
            (s.page_table (find_page_index b s (s.regions alloc_region).start_addr)).allocated
              % 8 } }
    alloc_region

/-! ## Weak pointers -/

/-- The function `add_to_weak_pointer_list` (lines 250-261):
`wp->next = weak_pointers ? weak_pointers : wp; weak_pointers = wp;`. -/
def add_to_weak_pointer_list (s : GcState) (wp : Nat) : GcState :=
  let s1 := { s with
    weak_next := Function.update s.weak_next wp
      (if s.weak_pointers ≠ 0 then s.weak_pointers else wp) }
  { s1 with weak_pointers := wp }

/-- Modelled from the spec: the chain from `head` visits exactly the records of
the list, in order: every record is non-null and linked to the one after it, and
the last record is its own successor. -/
def weak_chain (next : Nat → Nat) : Nat → List Nat → Bool
  | _, [] => false
  | head, [x] => decide (head = x) && decide (x ≠ 0) && decide (next x = x)
  | head, x :: y :: rest =>
    decide (head = x) && decide (x ≠ 0) && decide (next x = y) && weak_chain next y (y :: rest)

/-- Modelled from the spec: the registry is well-formed with traversal `l`: the
head is null and `l` is empty, or the chain from the head visits the distinct
records `l` and ends at a record that is its own successor. -/
def registry_wf (s : GcState) (l : List Nat) : Prop :=
  l.Nodup ∧
    (if s.weak_pointers = 0 then l = [] else weak_chain s.weak_next s.weak_pointers l = true)

instance registry_wf_decidable (s : GcState) (l : List Nat) : Decidable (registry_wf s l) := by
  unfold registry_wf
  infer_instance

/-! ## Free pages -/

/-- The free-page condition of `struct page` ("MUST be 0 for unallocated pages",
"If the page is free, all the following fields are zero"), for the pages of the
table. -/
def free_page_invariant (s : GcState) : Prop :=
  ∀ p : Int, 0 ≤ p → p < s.page_table_pages → (s.page_table p).allocated = 0 →
    (s.page_table p).scan_start_offset_ = 0 ∧ (s.page_table p).bytes_used_ = 0 ∧
    (s.page_table p).write_protected = false ∧
    (s.page_table p).write_protected_cleared = false ∧
    (s.page_table p).dont_move = false ∧ (s.page_table p).large_object = false

/-! ## Immobile space -/

/-- The `parts` view of `union immobile_page_attr`: four `unsigned char` fields
that share their storage with the `int packed`. -/
structure immobile_page_attr where
  flags : Nat
  obj_align : Nat
  obj_size : Nat
  gens_ : Nat

/-- An entry of the immobile-space page table (`struct fixedobj_page`). -/
structure fixedobj_page where
  attr : immobile_page_attr
  free_index : Int
  prior_gc_free_word_index : Int
  page_link : Int

/-- The macro `fixedobj_page_obj_align(i)`:
`(fixedobj_pages[i].attr.parts.obj_align<<WORD_SHIFT)`.  The field is an
`unsigned char`, read modulo 256; `WORD_SHIFT` is defined outside the sources. -/
def fixedobj_page_obj_align (WORD_SHIFT : Nat) (fixedobj_pages : Int → fixedobj_page)
    (i : Int) : Nat :=
  ((fixedobj_pages i).attr.obj_align % 256) <<< WORD_SHIFT

/-- The macro `fixedobj_page_obj_size(i)`: `fixedobj_pages[i].attr.parts.obj_size`,
an `unsigned char`. -/
def fixedobj_page_obj_size (fixedobj_pages : Int → fixedobj_page) (i : Int) : Nat :=
  (fixedobj_pages i).attr.obj_size % 256

/-! ## More sample configurations and states -/

/-- The sample conservative debug build compiled with
`-DPIN_GRANULARITY_LISPOBJ=0`. -/
def noPinBuild : Build :=
  { sampleBuild 0 true with cc_PIN_GRANULARITY_LISPOBJ := some 0 }

/-- A one-page state whose region at address 8 is open on page 0, with 64 bytes
allocated; page 0 carries the open-region bit. -/
def openRegionState : GcState :=
  { sampleState 1 (-1) 2 with
    page_table := fun i => if i = 0 then { boxedPage with allocated := 9, bytes_used_ := 0 }
      else freePage
    regions := fun r =>
      if r = 8 then
        { free_pointer := 0x1000000040, end_addr := 0x1000001000, last_page := 0,
          start_addr := 0x1000000000 }
      else emptyRegion }

/-- An immobile page table in which every page holds objects of 4 words aligned
on 32 words. -/
def samplePages : Int → fixedobj_page := fun _ =>
  { attr := { flags := 0, obj_align := 32, obj_size := 4, gens_ := 1 }
    free_index := 0
    prior_gc_free_word_index := 0
    page_link := 0 }

/-- The registry of the sample state after adding record `0x20` and then record
`0x40`: head `0x40`, whose `next` is `0x20`, which is its own successor. -/
def twoWeakState : GcState :=
  add_to_weak_pointer_list (add_to_weak_pointer_list (sampleState 1 1 2) 0x20) 0x40

/-! ## Arithmetic of `find_page_index` -/

theorem uintptr_sub_of_le (w x y : Nat) (hx : x < 2 ^ w) (hyx : y ≤ x) :
    uintptr_sub w x y = x - y := by
  unfold uintptr_sub
  have hy : y < 2 ^ w := lt_of_le_of_lt hyx hx
  rw [Nat.mod_eq_of_lt hx, Nat.mod_eq_of_lt hy]
  have hsum : x + (2 ^ w - y) = (x - y) + 2 ^ w := by omega
  rw [hsum, Nat.add_mod_right]
  exact Nat.mod_eq_of_lt (by omega)

theorem two_pow_pred_le (w : Nat) : 2 ^ (w - 1) ≤ 2 ^ w :=
  Nat.pow_le_pow_right (by decide) (Nat.sub_le w 1)

theorem two_pow_le_double (w : Nat) : 2 ^ w ≤ 2 * 2 ^ (w - 1) := by
  cases w with
  | zero => simp
  | succ n => simp [pow_succ, Nat.mul_comm]

theorem to_page_index_t_of_lt (w x : Nat) (hx : x < 2 ^ (w - 1)) :
    to_page_index_t w x = (x : Int) := by
  unfold to_page_index_t
  have h1 : x < 2 ^ w := lt_of_lt_of_le hx (two_pow_pred_le w)
  rw [Nat.mod_eq_of_lt h1, if_pos hx]

theorem to_page_index_t_neg (w x : Nat) (hx : ¬ x % 2 ^ w < 2 ^ (w - 1)) :
    to_page_index_t w x < 0 := by
  unfold to_page_index_t
  rw [if_neg hx]
  have hlt : x % 2 ^ w < 2 ^ w := Nat.mod_lt _ (by positivity)
  omega

theorem to_page_index_t_nonneg_eq (w x : Nat) (h : 0 ≤ to_page_index_t w x) :
    to_page_index_t w x = ((x % 2 ^ w : Nat) : Int) := by
  by_cases hx : x % 2 ^ w < 2 ^ (w - 1)
  · unfold to_page_index_t
    rw [if_pos hx]
  · exact absurd (to_page_index_t_neg w x hx) (not_lt.mpr h)

theorem div_card_lt (w d c : Nat) (hd : d < 2 ^ w) (hc : 1 < c) :
    d / c < 2 ^ (w - 1) := by
  have h2 := two_pow_le_double w
  rw [Nat.div_lt_iff_lt_mul (by omega)]
  calc d < 2 ^ w := hd
    _ ≤ 2 * 2 ^ (w - 1) := h2
    _ = 2 ^ (w - 1) * 2 := Nat.mul_comm _ _
    _ ≤ 2 ^ (w - 1) * c := Nat.mul_le_mul_left _ hc

theorem int_div_lt_iff (d c : Nat) (n : Int) (hc : 0 < c) :
    ((d / c : Nat) : Int) < n ↔ (d : Int) < n * c := by
  rw [Int.natCast_div]
  exact Int.ediv_lt_iff_lt_mul (by exact_mod_cast hc)

/-- The value of `find_page_index` at an address at or above the heap base, for
a card size above 1: the quotient when it is below `page_table_pages`, else
`-1`. -/
theorem find_page_index_of_ge (b : Build) (s : GcState) (a : Nat)
    (ha : a < 2 ^ b.N_WORD_BITS) (hC : 1 < b.GENCGC_CARD_BYTES)
    (hB : b.DYNAMIC_SPACE_START ≤ a) :
    find_page_index b s a =
      if (((a - b.DYNAMIC_SPACE_START) / b.GENCGC_CARD_BYTES : Nat) : Int) < s.page_table_pages
      then (((a - b.DYNAMIC_SPACE_START) / b.GENCGC_CARD_BYTES : Nat) : Int) else -1 := by
  unfold find_page_index
  rw [if_pos hB, uintptr_sub_of_le _ _ _ ha hB]
  have hd : a - b.DYNAMIC_SPACE_START < 2 ^ b.N_WORD_BITS := lt_of_le_of_lt (Nat.sub_le _ _) ha
  rw [to_page_index_t_of_lt _ _ (div_card_lt _ _ _ hd hC)]

/-- C1: for an address `a` (a word of `N_WORD_BITS` bits) and a card size above
1, `find_page_index a` is `floor((a - B) / C)` when `B ≤ a < B + N * C` and `-1`
for every other address; so the result is `-1` or an index `i` with
`0 ≤ i < N`, the conversion to the signed `page_index_t` included. -/
theorem find_page_index_spec (b : Build) (s : GcState) (a : Nat)
    (ha : a < 2 ^ b.N_WORD_BITS) (hC : 1 < b.GENCGC_CARD_BYTES) :
    ((b.DYNAMIC_SPACE_START ≤ a ∧
        (a : Int) < (b.DYNAMIC_SPACE_START : Int)
          + s.page_table_pages * (b.GENCGC_CARD_BYTES : Int)) →
      find_page_index b s a
        = ((a : Int) - (b.DYNAMIC_SPACE_START : Int)) / (b.GENCGC_CARD_BYTES : Int)) ∧
    (¬ (b.DYNAMIC_SPACE_START ≤ a ∧
        (a : Int) < (b.DYNAMIC_SPACE_START : Int)
          + s.page_table_pages * (b.GENCGC_CARD_BYTES : Int)) →
      find_page_index b s a = -1) ∧
    (find_page_index b s a = -1 ∨
      (0 ≤ find_page_index b s a ∧ find_page_index b s a < s.page_table_pages)) := by
  by_cases hB : b.DYNAMIC_SPACE_START ≤ a
  · have hval := find_page_index_of_ge b s a ha hC hB
    have hiff := int_div_lt_iff (a - b.DYNAMIC_SPACE_START) b.GENCGC_CARD_BYTES
      s.page_table_pages (by omega)
    have hsub : ((a - b.DYNAMIC_SPACE_START : Nat) : Int)
        = (a : Int) - (b.DYNAMIC_SPACE_START : Int) := Int.ofNat_sub hB
    by_cases hq : (((a - b.DYNAMIC_SPACE_START) / b.GENCGC_CARD_BYTES : Nat) : Int)
        < s.page_table_pages
    · rw [if_pos hq] at hval
      refine ⟨fun _ => ?_, fun hn => ?_, Or.inr ?_⟩
      · rw [hval, Int.natCast_div, hsub]
      · exact absurd ⟨hB, by have := hiff.mp hq; omega⟩ hn
      · rw [hval]
        exact ⟨Int.natCast_nonneg _, hq⟩
    · rw [if_neg hq] at hval
      refine ⟨fun hin => ?_, fun _ => hval, Or.inl hval⟩
      exact absurd (hiff.mpr (by have := hin.2; omega)) hq
  · have hval : find_page_index b s a = -1 := by
      unfold find_page_index
      rw [if_neg hB]
    exact ⟨fun hin => absurd hin.1 hB, fun _ => hval, Or.inl hval⟩

/-- Witness of C1 on the sample build (card size 4096): the address one card
above the base is not found in a one-page heap and is page 1 of a two-page
heap. -/
theorem find_page_index_spec_witness :
    find_page_index (sampleBuild 0 true) (sampleState 1 1 2) (0x1000000000 + 4096) = -1 ∧
    find_page_index (sampleBuild 0 true) (sampleState 2 1 2) (0x1000000000 + 4096) = 1 :=
  ⟨(find_page_index_spec (sampleBuild 0 true) (sampleState 1 1 2) (0x1000000000 + 4096)
      (by decide) (by decide)).2.1 (by decide),
    ((find_page_index_spec (sampleBuild 0 true) (sampleState 2 1 2) (0x1000000000 + 4096)
      (by decide) (by decide)).1 (by decide)).trans (by decide)⟩

/-- The page-to-address mapping at a page index that is not negative. -/
theorem page_address_natCast (b : Build) (n : Nat) :
    page_address b (n : Int) = b.DYNAMIC_SPACE_START + n * b.GENCGC_CARD_BYTES := by
  unfold page_address
  have hcast : (b.DYNAMIC_SPACE_START : Int) + (n : Int) * (b.GENCGC_CARD_BYTES : Int)
      = ((b.DYNAMIC_SPACE_START + n * b.GENCGC_CARD_BYTES : Nat) : Int) := by
    push_cast
    rfl
  rw [hcast, Int.toNat_natCast]

/-- C2: `find_page_index` is a left inverse of the page-to-address mapping.  For
a valid page index `i` (`0 ≤ i < page_table_pages`, the latter a `page_index_t`
value) and a byte offset `k` below the card size, with `page_address i + k` an
address of `N_WORD_BITS` bits, `find_page_index (page_address i + k) = i`. -/
theorem find_page_index_page_address (b : Build) (s : GcState) (i : Int) (k : Nat)
    (hi0 : 0 ≤ i) (hiN : i < s.page_table_pages) (hk : k < b.GENCGC_CARD_BYTES)
    (hrep : page_address b i + k < 2 ^ b.N_WORD_BITS)
    (hN : s.page_table_pages < ((2 ^ (b.N_WORD_BITS - 1) : Nat) : Int)) :
    find_page_index b s (page_address b i + k) = i := by
  obtain ⟨n, rfl⟩ := Int.eq_ofNat_of_zero_le hi0
  rw [page_address_natCast] at hrep ⊢
  have hB : b.DYNAMIC_SPACE_START
      ≤ b.DYNAMIC_SPACE_START + n * b.GENCGC_CARD_BYTES + k := by omega
  have hC : 0 < b.GENCGC_CARD_BYTES := by omega
  have hd : b.DYNAMIC_SPACE_START + n * b.GENCGC_CARD_BYTES + k - b.DYNAMIC_SPACE_START
      = k + b.GENCGC_CARD_BYTES * n := by
    rw [Nat.mul_comm n]
    omega
  have hq : (k + b.GENCGC_CARD_BYTES * n) / b.GENCGC_CARD_BYTES = n := by
    rw [Nat.add_mul_div_left _ _ hC, Nat.div_eq_of_lt hk, Nat.zero_add]
  have hn : n < 2 ^ (b.N_WORD_BITS - 1) := by
    have hlt : (n : Int) < ((2 ^ (b.N_WORD_BITS - 1) : Nat) : Int) := lt_trans hiN hN
    exact_mod_cast hlt
  unfold find_page_index
  rw [if_pos hB, uintptr_sub_of_le _ _ _ hrep hB, hd, hq, to_page_index_t_of_lt _ _ hn]
  simp only [if_pos hiN]

/-- Witness of C2 on the sample build (card size 4096, one page): the heap base
and the last byte of its card both map to page 0. -/
theorem find_page_index_page_address_witness :
    find_page_index (sampleBuild 0 true) (sampleState 1 1 2) (0x1000000000 + 0) = 0 ∧
    find_page_index (sampleBuild 0 true) (sampleState 1 1 2) (0x1000000000 + 4095) = 0 :=
  ⟨find_page_index_page_address (sampleBuild 0 true) (sampleState 1 1 2) 0 0
      (by decide) (by decide) (by decide) (by decide) (by decide),
    find_page_index_page_address (sampleBuild 0 true) (sampleState 1 1 2) 0 4095
      (by decide) (by decide) (by decide) (by decide) (by decide)⟩

/-! ## Space classification -/

/-- Under `compacting_p()` the `gc_dcheck` guard passes in every build. -/
theorem dcheck_pass (b : Build) (s : GcState) (hc : 0 ≤ s.from_space) :
    (b.gc_dcheck_active && !compacting_p s) = false := by
  simp [compacting_p, hc]

/-- After lines 59-61 the pin-granularity symbol is defined in every build. -/
theorem PIN_GRANULARITY_LISPOBJ_defined (b : Build) :
    ∃ v, PIN_GRANULARITY_LISPOBJ b = some v := by
  unfold PIN_GRANULARITY_LISPOBJ
  cases b.cc_PIN_GRANULARITY_LISPOBJ with
  | none => exact ⟨1, rfl⟩
  | some v => exact ⟨v, rfl⟩

/-- Under `compacting_p()` the guard of `pinned_p` passes and the body of the
function is what runs. -/
theorem pinned_p_run_eq (b : Build) (s : GcState) (obj : Nat) (page : Int)
    (hc : 0 ≤ s.from_space) :
    pinned_p_run b s obj page =
      if b.GENCGC_IS_PRECISE = 0 then
        if page_has_smallobj_pins s page then
          some (hopscotch_containsp s.pinned_objects obj, [Access.containsp obj])
        else some (false, [])
      else
        if s.pinned_objects.count = 0 ∨ page_has_smallobj_pins s page = false then
          some (false, [])
        else
          some (hopscotch_containsp s.pinned_objects (pin_lookup_key b s obj),
            pin_header_reads b obj ++ [Access.containsp (pin_lookup_key b s obj)]) := by
  obtain ⟨v, hv⟩ := PIN_GRANULARITY_LISPOBJ_defined b
  unfold pinned_p_run
  rw [hv]
  simp only [dcheck_pass b s hc, Bool.false_eq_true, if_false]

/-- Under `compacting_p()`, `pinned_p` returns a boolean. -/
theorem pinned_p_run_total (b : Build) (s : GcState) (obj : Nat) (page : Int)
    (hc : 0 ≤ s.from_space) : ∃ r, pinned_p_run b s obj page = some r := by
  rw [pinned_p_run_eq b s obj page hc]
  split_ifs <;> exact ⟨_, rfl⟩

theorem pinned_p_total (b : Build) (s : GcState) (obj : Nat) (page : Int)
    (hc : 0 ≤ s.from_space) : ∃ r, pinned_p b s obj page = some r := by
  obtain ⟨r, hr⟩ := pinned_p_run_total b s obj page hc
  exact ⟨r.1, by simp [pinned_p, hr]⟩

/-- The two outcomes of `find_page_index`. -/
theorem find_page_index_cases (b : Build) (s : GcState) (a : Nat) :
    find_page_index b s a = -1 ∨
    (b.DYNAMIC_SPACE_START ≤ a ∧
      find_page_index b s a = to_page_index_t b.N_WORD_BITS
        (uintptr_sub b.N_WORD_BITS a b.DYNAMIC_SPACE_START / b.GENCGC_CARD_BYTES) ∧
      find_page_index b s a < s.page_table_pages) := by
  unfold find_page_index
  by_cases hB : b.DYNAMIC_SPACE_START ≤ a
  · rw [if_pos hB]
    by_cases h2 : to_page_index_t b.N_WORD_BITS
        (uintptr_sub b.N_WORD_BITS a b.DYNAMIC_SPACE_START / b.GENCGC_CARD_BYTES)
          < s.page_table_pages
    · right
      simp only [if_pos h2]
      exact ⟨hB, trivial, h2⟩
    · left
      simp only [if_neg h2]
  · left
    rw [if_neg hB]

/-- An index returned by `find_page_index` that is not negative is below
`page_table_pages`. -/
theorem find_page_index_lt (b : Build) (s : GcState) (a : Nat)
    (h : 0 ≤ find_page_index b s a) : find_page_index b s a < s.page_table_pages := by
  rcases find_page_index_cases b s a with h1 | ⟨_, _, h3⟩
  · rw [h1] at h
    exact absurd h (by decide)
  · exact h3

/-- An address outside the page range of the dynamic space gets a negative
result from `find_page_index`, whatever the card size above 0. -/
theorem find_page_index_neg_of_outside (b : Build) (s : GcState) (a : Nat)
    (ha : a < 2 ^ b.N_WORD_BITS) (hC : 0 < b.GENCGC_CARD_BYTES)
    (hout : ¬ (b.DYNAMIC_SPACE_START ≤ a ∧
        (a : Int) < (b.DYNAMIC_SPACE_START : Int)
          + s.page_table_pages * (b.GENCGC_CARD_BYTES : Int))) :
    find_page_index b s a < 0 := by
  by_contra hneg
  have h0 : 0 ≤ find_page_index b s a := not_lt.mp hneg
  rcases find_page_index_cases b s a with h1 | ⟨hB, hidx, h2⟩
  · rw [h1] at h0
    exact absurd h0 (by decide)
  · rw [hidx, uintptr_sub_of_le _ _ _ ha hB] at h0 h2
    have hq := to_page_index_t_nonneg_eq _ _ h0
    have hd : (a - b.DYNAMIC_SPACE_START) / b.GENCGC_CARD_BYTES < 2 ^ b.N_WORD_BITS :=
      lt_of_le_of_lt (Nat.div_le_self _ _) (lt_of_le_of_lt (Nat.sub_le _ _) ha)
    rw [Nat.mod_eq_of_lt hd] at hq
    rw [hq] at h2
    have hiff := (int_div_lt_iff (a - b.DYNAMIC_SPACE_START) b.GENCGC_CARD_BYTES
      s.page_table_pages hC).mp h2
    have hsub : ((a - b.DYNAMIC_SPACE_START : Nat) : Int)
        = (a : Int) - (b.DYNAMIC_SPACE_START : Int) := Int.ofNat_sub hB
    exact hout ⟨hB, by omega⟩

/-- C3: under `compacting_p()` (`from_space >= 0`), `from_space_p(obj)` returns
a boolean, and it is true if and only if `find_page_index(obj)` finds a page `p`
(`0 ≤ p < page_table_pages`), `page_table[p].gen == from_space`, and
`pinned_p(obj, p)` is false.  For an address `obj` outside the page range of the
dynamic space it is false whatever the markers and the page table contain. -/
theorem from_space_p_iff (b : Build) (s : GcState) (obj : Nat) (hc : 0 ≤ s.from_space) :
    (∃ r, from_space_p b s obj = some r) ∧
    (from_space_p b s obj = some true ↔
      ∃ p : Int, find_page_index b s obj = p ∧ 0 ≤ p ∧ p < s.page_table_pages ∧
        (s.page_table p).gen = s.from_space ∧ pinned_p b s obj p = some false) ∧
    (obj < 2 ^ b.N_WORD_BITS → 0 < b.GENCGC_CARD_BYTES →
      ¬ (b.DYNAMIC_SPACE_START ≤ obj ∧
        (obj : Int) < (b.DYNAMIC_SPACE_START : Int)
          + s.page_table_pages * (b.GENCGC_CARD_BYTES : Int)) →
      from_space_p b s obj = some false) := by
  obtain ⟨r, hr⟩ := pinned_p_total b s obj (find_page_index b s obj) hc
  have hval : from_space_p b s obj =
      if 0 ≤ find_page_index b s obj ∧
          (s.page_table (find_page_index b s obj)).gen = s.from_space
      then some (!r) else some false := by
    unfold from_space_p
    simp only [dcheck_pass b s hc, hr, Option.map_some']
    rfl
  refine ⟨?_, ?_, ?_⟩
  · rw [hval]
    split_ifs <;> exact ⟨_, rfl⟩
  · rw [hval]
    constructor
    · intro h
      split_ifs at h with hcond
      · refine ⟨_, rfl, hcond.1, find_page_index_lt b s obj hcond.1, hcond.2, ?_⟩
        rw [hr]
        cases r <;> simp_all
      · exact absurd h (by decide)
    · rintro ⟨p, hp, h0, _, hgen, hpin⟩
      subst hp
      rw [hr] at hpin
      rw [if_pos ⟨h0, hgen⟩]
      cases r <;> simp_all
  · intro ha hC hout
    have hneg := find_page_index_neg_of_outside b s obj ha hC hout
    rw [hval, if_neg]
    exact fun hcond => absurd hcond.1 (not_le.mpr hneg)

/-- Witness of C3: in the sample state with `from_space = 1`, the object at the
heap base lies on page 0 (`gen = 1`, nothing pinned) and is in from-space. -/
theorem from_space_p_iff_witness :
    (0 : Int) ≤ (sampleState 2 1 2).from_space ∧
    from_space_p (sampleBuild 0 true) (sampleState 2 1 2) 0x1000000000 = some true :=
  ⟨by decide,
    (from_space_p_iff (sampleBuild 0 true) (sampleState 2 1 2) 0x1000000000
      (by decide)).2.1.mpr ⟨0, by decide, by decide, by decide, by decide, by decide⟩⟩

/-- Under `compacting_p()`, `from_space_p` in terms of the value of `pinned_p`
on the page of the object. -/
theorem from_space_p_eq (b : Build) (s : GcState) (obj : Nat) (hc : 0 ≤ s.from_space)
    (r : Bool) (hr : pinned_p b s obj (find_page_index b s obj) = some r) :
    from_space_p b s obj =
      if 0 ≤ find_page_index b s obj ∧
          (s.page_table (find_page_index b s obj)).gen = s.from_space
      then some (!r) else some false := by
  unfold from_space_p
  simp only [dcheck_pass b s hc, hr, Option.map_some']
  rfl

/-- C4 (pinning exclusivity): under `compacting_p()`, for an object `o` whose
page `p = find_page_index(o)` is found, if `pinned_p(o, p)` is true then
`from_space_p(o)` is false, whatever `page_table[p].gen` is; so `from_space_p(o)`
and `pinned_p(o, page_of(o))` are never both true. -/
theorem pinned_not_from_space (b : Build) (s : GcState) (o : Nat) (hc : 0 ≤ s.from_space) :
    (∀ p : Int, find_page_index b s o = p → 0 ≤ p → pinned_p b s o p = some true →
      from_space_p b s o = some false) ∧
    ¬ (from_space_p b s o = some true ∧
        pinned_p b s o (find_page_index b s o) = some true) := by
  have key : pinned_p b s o (find_page_index b s o) = some true →
      from_space_p b s o = some false := by
    intro hpin
    rw [from_space_p_eq b s o hc true hpin]
    split_ifs <;> rfl
  refine ⟨?_, ?_⟩
  · intro p hp _ hpin
    subst hp
    exact key hpin
  · rintro ⟨hfrom, hpin⟩
    rw [key hpin] at hfrom
    exact absurd hfrom (by decide)

/-- Witness of C4: page 0 has `gen = 1 = from_space` and `dont_move` set, the
object is in the pinned set, `pinned_p` is true and `from_space_p` is false. -/
theorem pinned_not_from_space_witness :
    ((pinnedState 1 2 0x1000000017).page_table 0).gen = (pinnedState 1 2 0x1000000017).from_space ∧
    pinned_p (sampleBuild 0 true) (pinnedState 1 2 0x1000000017) 0x1000000017 0 = some true ∧
    from_space_p (sampleBuild 0 true) (pinnedState 1 2 0x1000000017) 0x1000000017
      = some false :=
  ⟨by decide, by decide,
    (pinned_not_from_space (sampleBuild 0 true) (pinnedState 1 2 0x1000000017) 0x1000000017
      (by decide)).1 0 (by decide) (by decide) (by decide)⟩

/-- Under `compacting_p()`, the value of `new_space_p`. -/
theorem new_space_p_eq (b : Build) (s : GcState) (obj : Nat) (hc : 0 ≤ s.from_space) :
    new_space_p b s obj =
      some (decide (0 ≤ find_page_index b s obj ∧
        (s.page_table (find_page_index b s obj)).gen = s.new_space)) := by
  unfold new_space_p
  simp only [dcheck_pass b s hc]
  rfl

/-- C5: under `compacting_p()`, `new_space_p(obj)` returns a boolean, true if
and only if `find_page_index(obj)` finds a page `p` with
`page_table[p].gen == new_space`; there is no pinning exception: replacing the
pinned-objects table and the `dont_move` / `large_object` flags of the pages by
any others leaves the result unchanged. -/
theorem new_space_p_iff (b : Build) (s : GcState) (obj : Nat) (hc : 0 ≤ s.from_space) :
    (∃ r, new_space_p b s obj = some r) ∧
    (new_space_p b s obj = some true ↔
      ∃ p : Int, find_page_index b s obj = p ∧ 0 ≤ p ∧ p < s.page_table_pages ∧
        (s.page_table p).gen = s.new_space) ∧
    (∀ (pins : hopscotch_table) (dm lo : Int → Bool),
      new_space_p b (with_pins s pins dm lo) obj = new_space_p b s obj) := by
  refine ⟨⟨_, new_space_p_eq b s obj hc⟩, ?_, ?_⟩
  · rw [new_space_p_eq b s obj hc]
    constructor
    · intro h
      have hcond := of_decide_eq_true (Option.some.inj h)
      exact ⟨_, rfl, hcond.1, find_page_index_lt b s obj hcond.1, hcond.2⟩
    · rintro ⟨p, hp, h0, _, hgen⟩
      subst hp
      exact congrArg some (decide_eq_true ⟨h0, hgen⟩)
  · intro pins dm lo
    rfl

/-- Witness of C5 (end-to-end scenario): page 0 boxed with `gen = 1`,
`from_space = 1`, `new_space = 2`; `new_space_p` on the object at the heap base
is false, and it stays false with another pinned set and other pin flags. -/
theorem new_space_p_iff_witness :
    compacting_p (sampleState 1 1 2) = true ∧
    new_space_p (sampleBuild 0 true) (sampleState 1 1 2) 0x1000000000 = some false ∧
    new_space_p (sampleBuild 0 true)
      (with_pins (sampleState 1 1 2) ⟨1, [0x1000000000]⟩ (fun _ => true) (fun _ => false))
      0x1000000000 = some false :=
  ⟨by decide, by decide,
    ((new_space_p_iff (sampleBuild 0 true) (sampleState 1 1 2) 0x1000000000
      (by decide)).2.2 ⟨1, [0x1000000000]⟩ (fun _ => true) (fun _ => false)).trans
      (by decide)⟩

/-! ## Pinning -/

/-- Under `compacting_p()` on a precise build, `pinned_p` past its fast reject:
the value is the lookup of `pin_lookup_key`. -/
theorem pinned_p_precise_lookup (b : Build) (s : GcState) (obj : Nat) (p : Int)
    (hprec : b.GENCGC_IS_PRECISE = 1) (hc : 0 ≤ s.from_space)
    (hcount : s.pinned_objects.count ≠ 0) (helig : page_has_smallobj_pins s p = true) :
    pinned_p b s obj p
      = some (hopscotch_containsp s.pinned_objects (pin_lookup_key b s obj)) := by
  unfold pinned_p
  rw [pinned_p_run_eq b s obj p hc, hprec, helig]
  simp [hcount]

/-- C7: on a precise build (`GENCGC_IS_PRECISE = 1`) under `compacting_p()`,
`pinned_p(obj, p)` returns false, with no set lookup and no read of the header
of `obj`, when `pinned_objects.count == 0` or page `p` is not pin-eligible
(`dont_move` clear or `large_object` set); otherwise it returns whether the set
contains `obj`, or, when the header widetag of `obj` is `RETURN_PC_WIDETAG`,
whether it contains the `OTHER_POINTER_LOWTAG`-tagged reference to
`fun_code_header` of `obj`. -/
theorem pinned_p_precise (b : Build) (s : GcState) (obj : Nat) (p : Int)
    (hprec : b.GENCGC_IS_PRECISE = 1) (hc : 0 ≤ s.from_space) :
    ((s.pinned_objects.count = 0 ∨ (s.page_table p).dont_move = false ∨
        (s.page_table p).large_object = true) →
      pinned_p_run b s obj p = some (false, []) ∧ pinned_p b s obj p = some false) ∧
    (s.pinned_objects.count ≠ 0 → (s.page_table p).dont_move = true →
        (s.page_table p).large_object = false →
      (∀ t, b.RETURN_PC_WIDETAG = some t →
          b.widetag_of (s.heap (b.native_pointer obj)) = t →
        pinned_p b s obj p = some (hopscotch_containsp s.pinned_objects
          (b.make_lispobj (b.fun_code_header s.heap (b.native_pointer obj))
            b.OTHER_POINTER_LOWTAG))) ∧
      ((∀ t, b.RETURN_PC_WIDETAG = some t →
          b.widetag_of (s.heap (b.native_pointer obj)) ≠ t) →
        pinned_p b s obj p = some (hopscotch_containsp s.pinned_objects obj))) := by
  refine ⟨?_, ?_⟩
  · intro hrej
    have hcond : s.pinned_objects.count = 0 ∨ page_has_smallobj_pins s p = false := by
      unfold page_has_smallobj_pins
      rcases hrej with h | h | h
      · exact Or.inl h
      · exact Or.inr (by simp [h])
      · exact Or.inr (by simp [h])
    have hrun : pinned_p_run b s obj p = some (false, []) := by
      rw [pinned_p_run_eq b s obj p hc, hprec, if_neg (by decide), if_pos hcond]
    exact ⟨hrun, by rw [pinned_p, hrun]; rfl⟩
  · intro hcount hdm hlo
    have helig : page_has_smallobj_pins s p = true := by
      unfold page_has_smallobj_pins
      simp [hdm, hlo]
    have hval := pinned_p_precise_lookup b s obj p hprec hc hcount helig
    refine ⟨?_, ?_⟩
    · intro t ht hw
      rw [hval]
      unfold pin_lookup_key
      rw [ht]
      simp only [if_pos hw]
    · intro hne
      rw [hval]
      unfold pin_lookup_key
      cases ht : b.RETURN_PC_WIDETAG with
      | none => rfl
      | some t => simp only [if_neg (hne t ht)]

/-- Witness of C7: with an empty pinned set the precise `pinned_p` is false with
no access at all; in `returnPcState` the object `0x1000000025` has a return-pc
header and the tagged reference `0x100000001F` of its code object is pinned, so
`pinned_p` is true although the object itself is not in the set. -/
theorem pinned_p_precise_witness :
    pinned_p_run (sampleBuild 1 true) (sampleState 2 1 2) 0x1000000025 0 = some (false, []) ∧
    hopscotch_containsp returnPcState.pinned_objects 0x1000000025 = false ∧
    pinned_p (sampleBuild 1 true) returnPcState 0x1000000025 0 = some true :=
  ⟨((pinned_p_precise (sampleBuild 1 true) (sampleState 2 1 2) 0x1000000025 0 rfl
      (by decide)).1 (Or.inl (by decide))).1,
    by decide,
    (((pinned_p_precise (sampleBuild 1 true) returnPcState 0x1000000025 0 rfl
      (by decide)).2 (by decide) (by decide) (by decide)).1 0x36 rfl (by decide)).trans
      (by decide)⟩

/-! ## The debug guard -/

/-- In a debug build the guard fails exactly when `from_space` is negative. -/
theorem dcheck_fail_iff (b : Build) (s : GcState) (hd : b.gc_dcheck_active = true) :
    (b.gc_dcheck_active && !compacting_p s) = true ↔ s.from_space < 0 := by
  simp [compacting_p, hd]

/-- C8: `compacting_p()` holds iff `from_space >= 0`; in a debug build
(`gc_dcheck` active) each of `pinned_p`, `from_space_p` and `new_space_p` fails
its assertion if and only if `from_space < 0`; under `from_space >= 0` none of
them fails and each returns a boolean, in every build and for every input. -/
theorem classification_guard (b : Build) (s : GcState) (obj : Nat) (p : Int) :
    (compacting_p s = true ↔ 0 ≤ s.from_space) ∧
    (b.gc_dcheck_active = true →
      (pinned_p b s obj p = none ↔ s.from_space < 0) ∧
      (from_space_p b s obj = none ↔ s.from_space < 0) ∧
      (new_space_p b s obj = none ↔ s.from_space < 0)) ∧
    (0 ≤ s.from_space →
      (∃ r, pinned_p b s obj p = some r) ∧
      (∃ r, from_space_p b s obj = some r) ∧
      (∃ r, new_space_p b s obj = some r)) := by
  have htotal : 0 ≤ s.from_space →
      (∃ r, pinned_p b s obj p = some r) ∧
      (∃ r, from_space_p b s obj = some r) ∧
      (∃ r, new_space_p b s obj = some r) := by
    intro hc
    obtain ⟨r, hr⟩ := pinned_p_total b s obj (find_page_index b s obj) hc
    refine ⟨pinned_p_total b s obj p hc, ?_, ⟨_, new_space_p_eq b s obj hc⟩⟩
    rw [from_space_p_eq b s obj hc r hr]
    split_ifs <;> exact ⟨_, rfl⟩
  refine ⟨by simp [compacting_p], ?_, htotal⟩
  intro hd
  by_cases hc : 0 ≤ s.from_space
  · obtain ⟨⟨r1, h1⟩, ⟨r2, h2⟩, ⟨r3, h3⟩⟩ := htotal hc
    rw [h1, h2, h3]
    have hno : ¬ s.from_space < 0 := not_lt.mpr hc
    simp [hno]
  · have hneg : s.from_space < 0 := not_le.mp hc
    have hfail := (dcheck_fail_iff b s hd).mpr hneg
    obtain ⟨v, hv⟩ := PIN_GRANULARITY_LISPOBJ_defined b
    have h1 : pinned_p b s obj p = none := by
      unfold pinned_p pinned_p_run
      rw [hv]
      simp only [hfail, if_true, Option.map_none']
    have h2 : from_space_p b s obj = none := by
      unfold from_space_p
      simp only [hfail, if_true]
    have h3 : new_space_p b s obj = none := by
      unfold new_space_p
      simp only [hfail, if_true]
    simp [h1, h2, h3, hneg]

/-- Witness of C8: with `from_space = -1` the three predicates of a debug build
fail their assertion; with `from_space = 1` each returns a boolean. -/
theorem classification_guard_witness :
    (pinned_p (sampleBuild 0 true) (sampleState 2 (-1) 2) 0x1000000000 0 = none ∧
      from_space_p (sampleBuild 0 true) (sampleState 2 (-1) 2) 0x1000000000 = none ∧
      new_space_p (sampleBuild 0 true) (sampleState 2 (-1) 2) 0x1000000000 = none) ∧
    ((∃ r, pinned_p (sampleBuild 0 true) (sampleState 2 1 2) 0x1000000000 0 = some r) ∧
      (∃ r, from_space_p (sampleBuild 0 true) (sampleState 2 1 2) 0x1000000000 = some r) ∧
      (∃ r, new_space_p (sampleBuild 0 true) (sampleState 2 1 2) 0x1000000000 = some r)) :=
  ⟨⟨((classification_guard (sampleBuild 0 true) (sampleState 2 (-1) 2)
        0x1000000000 0).2.1 rfl).1.mpr (by decide),
      ((classification_guard (sampleBuild 0 true) (sampleState 2 (-1) 2)
        0x1000000000 0).2.1 rfl).2.1.mpr (by decide),
      ((classification_guard (sampleBuild 0 true) (sampleState 2 (-1) 2)
        0x1000000000 0).2.1 rfl).2.2.mpr (by decide)⟩,
    (classification_guard (sampleBuild 0 true) (sampleState 2 1 2)
      0x1000000000 0).2.2 (by decide)⟩

/-! ## Allocation regions -/

/-- The three stores of `gc_set_region_empty` amount to one update of the
region. -/
theorem gc_set_region_empty_eq (s : GcState) (region : Nat) :
    gc_set_region_empty s region =
      { s with
        regions := Function.update s.regions region
          { free_pointer := 0, end_addr := 0, last_page := (s.regions region).last_page,
            start_addr := 0 } } := by
  unfold gc_set_region_empty
  simp only [Function.update_same, Function.update_idem]

/-- The stores of `gc_init_region` amount to one update of the region. -/
theorem gc_init_region_eq (s : GcState) (region : Nat) :
    gc_init_region s region =
      { s with
        regions := Function.update s.regions region
          { free_pointer := 0, end_addr := 0, last_page := 0, start_addr := 0 } } := by
  unfold gc_init_region
  rw [gc_set_region_empty_eq]
  simp only [Function.update_same, Function.update_idem]

/-- C9: `gc_set_region_empty(r)` sets `start_addr`, `free_pointer` and
`end_addr` of the region to 0 and leaves its `last_page` as it was; every other
region, the page table, the generation markers, the pinned set, the heap and the
weak-pointer list are unchanged. -/
theorem gc_set_region_empty_spec (s : GcState) (region : Nat) :
    ((gc_set_region_empty s region).regions region).start_addr = 0 ∧
    ((gc_set_region_empty s region).regions region).free_pointer = 0 ∧
    ((gc_set_region_empty s region).regions region).end_addr = 0 ∧
    ((gc_set_region_empty s region).regions region).last_page
      = (s.regions region).last_page ∧
    (∀ other, other ≠ region →
      (gc_set_region_empty s region).regions other = s.regions other) ∧
    (gc_set_region_empty s region).page_table = s.page_table ∧
    (gc_set_region_empty s region).page_table_pages = s.page_table_pages ∧
    (gc_set_region_empty s region).from_space = s.from_space ∧
    (gc_set_region_empty s region).new_space = s.new_space ∧
    (gc_set_region_empty s region).pinned_objects = s.pinned_objects ∧
    (gc_set_region_empty s region).heap = s.heap ∧
    (gc_set_region_empty s region).weak_pointers = s.weak_pointers ∧
    (gc_set_region_empty s region).weak_next = s.weak_next := by
  rw [gc_set_region_empty_eq]
  refine ⟨?_, ?_, ?_, ?_, ?_, rfl, rfl, rfl, rfl, rfl, rfl, rfl, rfl⟩
  · simp only [Function.update_same]
  · simp only [Function.update_same]
  · simp only [Function.update_same]
  · simp only [Function.update_same]
  · intro other hne
    simp only [Function.update_noteq hne]

/-- Instance of C9: the region at address 8 of `garbageState` becomes empty and
keeps its `last_page` of -7; the region at address 16 keeps its open window. -/
theorem gc_set_region_empty_spec_witness :
    ((gc_set_region_empty garbageState 8).regions 8).start_addr = 0 ∧
    ((gc_set_region_empty garbageState 8).regions 8).last_page = -7 ∧
    (gc_set_region_empty garbageState 8).regions 16 = garbageState.regions 16 :=
  ⟨(gc_set_region_empty_spec garbageState 8).1,
    (gc_set_region_empty_spec garbageState 8).2.2.2.1,
    (gc_set_region_empty_spec garbageState 8).2.2.2.2.1 16 (by decide)⟩

/-- C10: whatever the region held before, `gc_init_region(r)` leaves it with
`start_addr = free_pointer = end_addr = 0` and `last_page = 0`; the result does
not depend on the prior contents of the region, `gc_init_region` is idempotent,
nothing but the region changes, and the hint 0 is a valid page index of any
page table that has a page. -/
theorem gc_init_region_spec (s : GcState) (region : Nat) :
    (gc_init_region s region).regions region
      = { free_pointer := 0, end_addr := 0, last_page := 0, start_addr := 0 } ∧
    (∀ prior : alloc_region,
      gc_init_region { s with regions := Function.update s.regions region prior } region
        = gc_init_region s region) ∧
    gc_init_region (gc_init_region s region) region = gc_init_region s region ∧
    (0 < s.page_table_pages →
      0 ≤ ((gc_init_region s region).regions region).last_page ∧
      ((gc_init_region s region).regions region).last_page
        < (gc_init_region s region).page_table_pages) ∧
    (∀ other, other ≠ region → (gc_init_region s region).regions other = s.regions other) ∧
    (gc_init_region s region).page_table = s.page_table ∧
    (gc_init_region s region).page_table_pages = s.page_table_pages ∧
    (gc_init_region s region).from_space = s.from_space ∧
    (gc_init_region s region).new_space = s.new_space ∧
    (gc_init_region s region).pinned_objects = s.pinned_objects ∧
    (gc_init_region s region).heap = s.heap ∧
    (gc_init_region s region).weak_pointers = s.weak_pointers ∧
    (gc_init_region s region).weak_next = s.weak_next := by
  refine ⟨?_, ?_, ?_, ?_, ?_, ?_⟩
  · rw [gc_init_region_eq]
    simp only [Function.update_same]
  · intro prior
    rw [gc_init_region_eq, gc_init_region_eq]
    simp only [Function.update_idem]
  · rw [gc_init_region_eq, gc_init_region_eq]
    simp only [Function.update_idem]
  · intro hpages
    rw [gc_init_region_eq]
    simp only [Function.update_same]
    exact ⟨le_refl 0, hpages⟩
  · intro other hne
    rw [gc_init_region_eq]
    simp only [Function.update_noteq hne]
  · rw [gc_init_region_eq]
    exact ⟨rfl, rfl, rfl, rfl, rfl, rfl, rfl, rfl⟩

/-- Instance of C10: the leftover region at address 8 of `garbageState` is
initialised to the empty region with `last_page = 0`, a valid index of the
one-page table. -/
theorem gc_init_region_spec_witness :
    (garbageState.regions 8).last_page = -7 ∧
    (gc_init_region garbageState 8).regions 8 = emptyRegion ∧
    ((gc_init_region garbageState 8).regions 8).last_page
      < (gc_init_region garbageState 8).page_table_pages :=
  ⟨by decide, (gc_init_region_spec garbageState 8).1,
    ((gc_init_region_spec garbageState 8).2.2.2.1 (by decide)).2⟩

/-! ## Closing a region -/

/-- C11: for every page type, region and state, and whatever the external
`gc_close_region` does: if the region's `start_addr` is 0, `ensure_region_closed`
makes no call of `gc_close_region` and leaves the whole state (region and page
table included) unchanged; if `start_addr` is non-zero, it calls
`gc_close_region` exactly once, with the same page type and region, and the
resulting state is the one `gc_close_region` produces. -/
theorem ensure_region_closed_spec (gc_close_region : GcState → Int → Nat → GcState)
    (s : GcState) (page_type_flag : Int) (alloc_region : Nat) :
    ((s.regions alloc_region).start_addr = 0 →
      ensure_region_closed_run gc_close_region s page_type_flag alloc_region = (s, []) ∧
      ensure_region_closed gc_close_region s page_type_flag alloc_region = s) ∧
    ((s.regions alloc_region).start_addr ≠ 0 →
      ensure_region_closed_run gc_close_region s page_type_flag alloc_region
        = (gc_close_region s page_type_flag alloc_region, [(page_type_flag, alloc_region)]) ∧
      ensure_region_closed gc_close_region s page_type_flag alloc_region
        = gc_close_region s page_type_flag alloc_region) := by
  refine ⟨fun h0 => ?_, fun hne => ?_⟩
  · have hrun : ensure_region_closed_run gc_close_region s page_type_flag alloc_region
        = (s, []) := by
      unfold ensure_region_closed_run
      rw [if_neg (not_not.mpr h0)]
    exact ⟨hrun, by rw [ensure_region_closed, hrun]⟩
  · have hrun : ensure_region_closed_run gc_close_region s page_type_flag alloc_region
        = (gc_close_region s page_type_flag alloc_region,
            [(page_type_flag, alloc_region)]) := by
      unfold ensure_region_closed_run
      rw [if_pos hne]
    exact ⟨hrun, by rw [ensure_region_closed, hrun]⟩

/-- Instance of C11: on the empty region at address 16 of `openRegionState`
nothing is called; on the open region at address 8 the close operation is called
once, with page type 1 and region 8. -/
theorem ensure_region_closed_spec_witness :
    ensure_region_closed_run (sampleClose (sampleBuild 0 false)) openRegionState 1 16
      = (openRegionState, []) ∧
    (ensure_region_closed_run (sampleClose (sampleBuild 0 false)) openRegionState 1 8).2
      = [(1, 8)] :=
  ⟨((ensure_region_closed_spec (sampleClose (sampleBuild 0 false)) openRegionState 1 16).1
      (by decide)).1,
    congrArg Prod.snd
      ((ensure_region_closed_spec (sampleClose (sampleBuild 0 false)) openRegionState 1 8).2
        (by decide)).1⟩

/-- The stand-in close operation meets the closing contract. -/
theorem sampleClose_closes (b : Build) : closes_region (sampleClose b) := by
  intro s t r
  unfold sampleClose
  rw [gc_set_region_empty_eq]
  simp only [Function.update_same]

/-- C12 (idempotence of closing): with an external close operation that leaves
the region it closes with `start_addr = 0`, a second `ensure_region_closed` on
the same region right after the first makes no call of `gc_close_region` and
leaves the state (page table and region included) as the first call left it. -/
theorem ensure_region_closed_idem (gc_close_region : GcState → Int → Nat → GcState)
    (hclose : closes_region gc_close_region)
    (s : GcState) (page_type_flag : Int) (alloc_region : Nat) :
    ensure_region_closed_run gc_close_region
        (ensure_region_closed gc_close_region s page_type_flag alloc_region)
        page_type_flag alloc_region
      = (ensure_region_closed gc_close_region s page_type_flag alloc_region, []) ∧
    ensure_region_closed gc_close_region
        (ensure_region_closed gc_close_region s page_type_flag alloc_region)
        page_type_flag alloc_region
      = ensure_region_closed gc_close_region s page_type_flag alloc_region ∧
    (ensure_region_closed gc_close_region
        (ensure_region_closed gc_close_region s page_type_flag alloc_region)
        page_type_flag alloc_region).page_table
      = (ensure_region_closed gc_close_region s page_type_flag alloc_region).page_table := by
  have hzero : ((ensure_region_closed gc_close_region s page_type_flag alloc_region).regions
      alloc_region).start_addr = 0 := by
    unfold ensure_region_closed ensure_region_closed_run
    by_cases h : (s.regions alloc_region).start_addr ≠ 0
    · rw [if_pos h]
      exact hclose s page_type_flag alloc_region
    · rw [if_neg h]
      exact not_not.mp h
  have hrun : ensure_region_closed_run gc_close_region
      (ensure_region_closed gc_close_region s page_type_flag alloc_region)
      page_type_flag alloc_region
        = (ensure_region_closed gc_close_region s page_type_flag alloc_region, []) := by
    conv_lhs => unfold ensure_region_closed_run
    rw [if_neg (not_not.mpr hzero)]
  have hstate : ensure_region_closed gc_close_region
      (ensure_region_closed gc_close_region s page_type_flag alloc_region)
      page_type_flag alloc_region
        = ensure_region_closed gc_close_region s page_type_flag alloc_region := by
    conv_lhs => rw [ensure_region_closed, hrun]
  exact ⟨hrun, hstate, by rw [hstate]⟩

/-- Witness of C12 (end-to-end scenario): the region at address 8 of
`openRegionState` is open with 64 bytes allocated; the first close records 64
bytes used on page 0 and clears the open-region bit, the second close calls
nothing. -/
theorem ensure_region_closed_idem_witness :
    ((openRegionState.regions 8).start_addr ≠ 0) ∧
    ((ensure_region_closed (sampleClose (sampleBuild 0 false)) openRegionState 1 8).page_table
      0).bytes_used_ = 64 ∧
    ((ensure_region_closed (sampleClose (sampleBuild 0 false)) openRegionState 1 8).page_table
      0).allocated = 1 ∧
    (ensure_region_closed_run (sampleClose (sampleBuild 0 false))
      (ensure_region_closed (sampleClose (sampleBuild 0 false)) openRegionState 1 8) 1 8).2
      = [] :=
  ⟨by decide, by decide, by decide,
    congrArg Prod.snd
      (ensure_region_closed_idem (sampleClose (sampleBuild 0 false))
        (sampleClose_closes (sampleBuild 0 false)) openRegionState 1 8).1⟩

/-! ## Weak pointers -/

/-- A chain is not empty and starts at the head, which is not null. -/
theorem weak_chain_head (next : Nat → Nat) (head : Nat) (l : List Nat)
    (h : weak_chain next head l = true) : ∃ t, l = head :: t ∧ head ≠ 0 := by
  cases l with
  | nil => simp [weak_chain] at h
  | cons x t =>
    cases t with
    | nil =>
      simp only [weak_chain, Bool.and_eq_true, decide_eq_true_eq] at h
      obtain ⟨⟨hx, h0⟩, _⟩ := h
      subst hx
      exact ⟨[], rfl, h0⟩
    | cons y rest =>
      simp only [weak_chain, Bool.and_eq_true, decide_eq_true_eq] at h
      obtain ⟨⟨⟨hx, h0⟩, _⟩, _⟩ := h
      subst hx
      exact ⟨y :: rest, rfl, h0⟩

/-- Every record of a chain has a non-null `next`. -/
theorem weak_chain_next_ne_zero (next : Nat → Nat) (l : List Nat) :
    ∀ head, weak_chain next head l = true → ∀ x ∈ l, next x ≠ 0 := by
  induction l with
  | nil => intro head h; simp [weak_chain] at h
  | cons x t ih =>
    intro head h z hz
    cases t with
    | nil =>
      simp only [weak_chain, Bool.and_eq_true, decide_eq_true_eq] at h
      obtain ⟨⟨_, h0⟩, hself⟩ := h
      have hzx : z = x := by simpa using hz
      rw [hzx, hself]
      exact h0
    | cons y rest =>
      simp only [weak_chain, Bool.and_eq_true, decide_eq_true_eq] at h
      obtain ⟨⟨⟨_, _⟩, hxy⟩, hrest⟩ := h
      rcases List.mem_cons.mp hz with hzx | hzt
      · obtain ⟨_, _, hy0⟩ := weak_chain_head next y (y :: rest) hrest
        rw [hzx, hxy]
        exact hy0
      · exact ih y hrest z hzt

/-- A chain only depends on the `next` slots of its own records. -/
theorem weak_chain_congr (next next2 : Nat → Nat) (l : List Nat) :
    ∀ head, (∀ x ∈ l, next2 x = next x) →
      weak_chain next2 head l = weak_chain next head l := by
  induction l with
  | nil => intro head _; rfl
  | cons x t ih =>
    intro head hsame
    cases t with
    | nil =>
      simp only [weak_chain, hsame x (List.mem_cons_self x [])]
    | cons y rest =>
      have hrest := ih y (fun z hz => hsame z (List.mem_cons_of_mem x hz))
      simp only [weak_chain, hsame x (List.mem_cons_self x _), hrest]

/-- The `next` slots after `add_to_weak_pointer_list`. -/
theorem add_to_weak_pointer_list_next (s : GcState) (wp : Nat) :
    (add_to_weak_pointer_list s wp).weak_next
      = Function.update s.weak_next wp (if s.weak_pointers ≠ 0 then s.weak_pointers else wp) :=
  rfl

/-- A record whose `next` is null is not on the traversal of a well-formed
registry. -/
theorem not_mem_of_next_null (s : GcState) (ref : Nat) (l : List Nat)
    (hwf : registry_wf s l) (hnext : s.weak_next ref = 0) : ref ∉ l := by
  intro hmem
  obtain ⟨_, hchain⟩ := hwf
  by_cases h0 : s.weak_pointers = 0
  · rw [if_pos h0] at hchain
    rw [hchain] at hmem
    exact absurd hmem (List.not_mem_nil _)
  · rw [if_neg h0] at hchain
    exact weak_chain_next_ne_zero s.weak_next l s.weak_pointers hchain ref hmem hnext

/-- C13: for a well-formed registry with traversal `l` and a record `ref` (a
non-null address) with `ref.next == null`, after `add_to_weak_pointer_list(ref)`
the head is `ref`; `ref.next` is the old head if the list was non-empty and
`ref` itself if it was empty, so it is not null; no other record's `next` slot
has changed; the registry is well-formed again with traversal `ref` followed by
`l`; and nothing but the head and that slot has changed. -/
theorem add_to_weak_pointer_list_unlinked (s : GcState) (ref : Nat) (l : List Nat)
    (hwf : registry_wf s l) (href : ref ≠ 0) (hnext : s.weak_next ref = 0) :
    (add_to_weak_pointer_list s ref).weak_pointers = ref ∧
    (s.weak_pointers ≠ 0 →
      (add_to_weak_pointer_list s ref).weak_next ref = s.weak_pointers) ∧
    (s.weak_pointers = 0 → (add_to_weak_pointer_list s ref).weak_next ref = ref) ∧
    (∀ x, x ≠ ref → (add_to_weak_pointer_list s ref).weak_next x = s.weak_next x) ∧
    registry_wf (add_to_weak_pointer_list s ref) (ref :: l) ∧
    (add_to_weak_pointer_list s ref).weak_next ref ≠ 0 ∧
    (add_to_weak_pointer_list s ref).page_table = s.page_table ∧
    (add_to_weak_pointer_list s ref).regions = s.regions := by
  have hnot := not_mem_of_next_null s ref l hwf hnext
  have hother : ∀ x, x ≠ ref →
      (add_to_weak_pointer_list s ref).weak_next x = s.weak_next x := by
    intro x hx
    rw [add_to_weak_pointer_list_next, Function.update_noteq hx]
  have hfull : s.weak_pointers ≠ 0 →
      (add_to_weak_pointer_list s ref).weak_next ref = s.weak_pointers := by
    intro h0
    rw [add_to_weak_pointer_list_next, Function.update_same, if_pos h0]
  have hempty : s.weak_pointers = 0 →
      (add_to_weak_pointer_list s ref).weak_next ref = ref := by
    intro h0
    rw [add_to_weak_pointer_list_next, Function.update_same, if_neg (not_not.mpr h0)]
  have hlinked : (add_to_weak_pointer_list s ref).weak_next ref ≠ 0 := by
    by_cases h0 : s.weak_pointers = 0
    · rw [hempty h0]
      exact href
    · rw [hfull h0]
      exact h0
  refine ⟨rfl, hfull, hempty, hother, ⟨List.nodup_cons.mpr ⟨hnot, hwf.1⟩, ?_⟩, hlinked,
    rfl, rfl⟩
  have hhead : (add_to_weak_pointer_list s ref).weak_pointers = ref := rfl
  rw [hhead, if_neg href]
  have hchain := hwf.2
  by_cases h0 : s.weak_pointers = 0
  · rw [if_pos h0] at hchain
    subst hchain
    simp only [weak_chain, Bool.and_eq_true, decide_eq_true_eq]
    exact ⟨⟨trivial, href⟩, hempty h0⟩
  · rw [if_neg h0] at hchain
    obtain ⟨t, hl, _⟩ := weak_chain_head s.weak_next s.weak_pointers l hchain
    have hsame : ∀ x ∈ l, (add_to_weak_pointer_list s ref).weak_next x = s.weak_next x :=
      fun x hx => hother x (fun hxr => hnot (hxr ▸ hx))
    have hkeep := weak_chain_congr s.weak_next (add_to_weak_pointer_list s ref).weak_next l
      s.weak_pointers hsame
    rw [hchain] at hkeep
    rw [hl] at hkeep ⊢
    simp only [weak_chain, Bool.and_eq_true, decide_eq_true_eq]
    exact ⟨⟨⟨trivial, href⟩, hfull h0⟩, hkeep⟩

/-- Witness of C13: adding record `0x20` to the empty registry of the sample
state makes it a one-record list ending in its self-reference; adding `0x40`
next puts it in front. -/
theorem add_to_weak_pointer_list_unlinked_witness :
    registry_wf (sampleState 1 1 2) [] ∧
    registry_wf (add_to_weak_pointer_list (sampleState 1 1 2) 0x20) [0x20] ∧
    registry_wf (add_to_weak_pointer_list (add_to_weak_pointer_list (sampleState 1 1 2) 0x20)
      0x40) [0x40, 0x20] :=
  ⟨by decide,
    (add_to_weak_pointer_list_unlinked (sampleState 1 1 2) 0x20 [] (by decide) (by decide)
      (by decide)).2.2.2.2.1,
    (add_to_weak_pointer_list_unlinked (add_to_weak_pointer_list (sampleState 1 1 2) 0x20)
      0x40 [0x20] (by decide) (by decide) (by decide)).2.2.2.2.1⟩

/-- With two distinct records that are each other's successor, no list of
distinct records is a chain from the first of them. -/
theorem two_cycle_no_chain (next : Nat → Nat) (a c : Nat) (hac : a ≠ c)
    (h1 : next a = c) (h2 : next c = a) (l : List Nat) (hnd : l.Nodup) :
    weak_chain next a l = false := by
  cases hch : weak_chain next a l with
  | false => rfl
  | true =>
    exfalso
    match l, hnd, hch with
    | [], _, hch => simp [weak_chain] at hch
    | [x], _, hch =>
      simp only [weak_chain, Bool.and_eq_true, decide_eq_true_eq] at hch
      obtain ⟨⟨hx, _⟩, hself⟩ := hch
      subst hx
      exact hac (hself.symm.trans h1)
    | [x, y], _, hch =>
      simp only [weak_chain, Bool.and_eq_true, decide_eq_true_eq] at hch
      obtain ⟨⟨⟨hx, _⟩, hxy⟩, ⟨⟨hy, _⟩, hself⟩⟩ := hch
      subst hx
      have hyc : y = c := hxy.symm.trans h1
      subst hyc
      exact hac (h2.symm.trans hself)
    | x :: y :: z :: rest, hnd, hch =>
      simp only [weak_chain, Bool.and_eq_true, decide_eq_true_eq] at hch
      obtain ⟨⟨⟨hx, _⟩, hxy⟩, ⟨⟨⟨_, _⟩, hyz⟩, _⟩⟩ := hch
      subst hx
      have hyc : y = c := hxy.symm.trans h1
      subst hyc
      have hza : z = a := hyz.symm.trans h2
      subst hza
      simp at hnd

/-- C14, the code at a failing input: in `twoWeakState` the head record `0x40`
is linked (`next = 0x20`, not null) and the registry is well-formed with
traversal `[0x40, 0x20]`; `add_to_weak_pointer_list(0x40)` overwrites the `next`
slot of the record with the head, that is with `0x40` itself, so the slot has
changed and record `0x20` is no longer reachable from the head. -/
theorem add_to_weak_pointer_list_relink_head :
    registry_wf twoWeakState [0x40, 0x20] ∧
    twoWeakState.weak_next 0x40 = 0x20 ∧
    (add_to_weak_pointer_list twoWeakState 0x40).weak_pointers = 0x40 ∧
    (add_to_weak_pointer_list twoWeakState 0x40).weak_next 0x40 = 0x40 ∧
    (add_to_weak_pointer_list twoWeakState 0x40).weak_next 0x40
      ≠ twoWeakState.weak_next 0x40 ∧
    registry_wf (add_to_weak_pointer_list twoWeakState 0x40) [0x40] := by
  decide

/-- C15, the code at the input the property names: empty list, add `a = 0x20`,
add `b = 0x40`, add `a` again.  The third call overwrites `a.next` with the head
`b`, whose `next` is `a`: the two records are each other's successor, none is its
own successor, and no list of distinct records is a traversal of the registry. -/
theorem add_to_weak_pointer_list_readd_cycle :
    (add_to_weak_pointer_list twoWeakState 0x20).weak_pointers = 0x20 ∧
    (add_to_weak_pointer_list twoWeakState 0x20).weak_next 0x20 = 0x40 ∧
    (add_to_weak_pointer_list twoWeakState 0x20).weak_next 0x40 = 0x20 ∧
    (∀ l : List Nat, ¬ registry_wf (add_to_weak_pointer_list twoWeakState 0x20) l) := by
  refine ⟨by decide, by decide, by decide, ?_⟩
  rintro l ⟨hnd, hch⟩
  have hhead : (add_to_weak_pointer_list twoWeakState 0x20).weak_pointers = 0x20 := by decide
  rw [hhead, if_neg (by decide)] at hch
  have hno := two_cycle_no_chain (add_to_weak_pointer_list twoWeakState 0x20).weak_next
    0x20 0x40 (by decide) (by decide) (by decide) l hnd
  rw [hno] at hch
  exact absurd hch (by decide)

/-! ## Free pages -/

/-- The free-page condition only reads the page table and its length. -/
theorem free_page_invariant_of_eq (s s2 : GcState) (htable : s2.page_table = s.page_table)
    (hpages : s2.page_table_pages = s.page_table_pages) (hinv : free_page_invariant s) :
    free_page_invariant s2 := by
  intro p h0 hlt hfree
  rw [htable] at hfree ⊢
  rw [hpages] at hlt
  exact hinv p h0 hlt hfree

/-- The sample states keep the free-page condition: page 0 is allocated and the
other pages are all zero. -/
theorem sampleState_free_page_invariant (pages fromSpace newSpace : Int) :
    free_page_invariant (sampleState pages fromSpace newSpace) := by
  intro p _ _ hfree
  by_cases hp : p = 0
  · subst hp
    simp [sampleState, boxedPage] at hfree
  · simp [sampleState, hp, freePage]

/-- C16: the free-page invariant (a free page has `scan_start_offset`,
`bytes_used` and the four flag bits zero) is preserved by every operation of the
header that yields a state: `gc_set_region_empty`, `gc_init_region`,
`add_to_weak_pointer_list`, and `ensure_region_closed` on a region whose
`start_addr` is 0, because each leaves the page table as it was.  The predicates
`find_page_index`, `pinned_p`, `from_space_p` and `new_space_p` only return a
value: they are functions of the state and yield no other state. -/
theorem free_page_invariant_preserved (gc_close_region : GcState → Int → Nat → GcState)
    (s : GcState) (region wp : Nat) (page_type_flag : Int)
    (hinv : free_page_invariant s) :
    (free_page_invariant (gc_set_region_empty s region) ∧
      (gc_set_region_empty s region).page_table = s.page_table) ∧
    (free_page_invariant (gc_init_region s region) ∧
      (gc_init_region s region).page_table = s.page_table) ∧
    (free_page_invariant (add_to_weak_pointer_list s wp) ∧
      (add_to_weak_pointer_list s wp).page_table = s.page_table) ∧
    ((s.regions region).start_addr = 0 →
      free_page_invariant (ensure_region_closed gc_close_region s page_type_flag region) ∧
      (ensure_region_closed gc_close_region s page_type_flag region).page_table
        = s.page_table) := by
  refine ⟨⟨?_, ?_⟩, ⟨?_, ?_⟩, ⟨?_, rfl⟩, ?_⟩
  · exact free_page_invariant_of_eq s _ (by rw [gc_set_region_empty_eq])
      (by rw [gc_set_region_empty_eq]) hinv
  · rw [gc_set_region_empty_eq]
  · exact free_page_invariant_of_eq s _ (by rw [gc_init_region_eq])
      (by rw [gc_init_region_eq]) hinv
  · rw [gc_init_region_eq]
  · exact free_page_invariant_of_eq s _ rfl rfl hinv
  · intro h0
    have hsame : ensure_region_closed gc_close_region s page_type_flag region = s := by
      unfold ensure_region_closed ensure_region_closed_run
      rw [if_neg (not_not.mpr h0)]
    rw [hsame]
    exact ⟨hinv, rfl⟩

/-- Witness of C16 on the sample state, whose region at address 8 is empty. -/
theorem free_page_invariant_preserved_witness :
    free_page_invariant (sampleState 2 1 2) ∧
    free_page_invariant (gc_init_region (sampleState 2 1 2) 8) ∧
    free_page_invariant (add_to_weak_pointer_list (sampleState 2 1 2) 0x20) ∧
    free_page_invariant
      (ensure_region_closed (sampleClose (sampleBuild 0 true)) (sampleState 2 1 2) 1 8) :=
  ⟨sampleState_free_page_invariant 2 1 2,
    (free_page_invariant_preserved (sampleClose (sampleBuild 0 true)) (sampleState 2 1 2)
      8 0x20 1 (sampleState_free_page_invariant 2 1 2)).2.1.1,
    (free_page_invariant_preserved (sampleClose (sampleBuild 0 true)) (sampleState 2 1 2)
      8 0x20 1 (sampleState_free_page_invariant 2 1 2)).2.2.1.1,
    ((free_page_invariant_preserved (sampleClose (sampleBuild 0 true)) (sampleState 2 1 2)
      8 0x20 1 (sampleState_free_page_invariant 2 1 2)).2.2.2 (by decide)).1⟩

/-! ## Immobile space -/

/-- Counterexample to C17 as stated: on a 64-bit build (`WORD_SHIFT = 3`) a page
of objects aligned on 32 words has `fixedobj_page_obj_align = 256`: the macro
shifts the word count left by `WORD_SHIFT`, so its value counts bytes and
exceeds 255, while `fixedobj_page_obj_size` is 4 words. -/
theorem fixedobj_page_obj_align_counterexample :
    (samplePages 0).attr.obj_align = 32 ∧
    fixedobj_page_obj_align 3 samplePages 0 = 256 ∧
    ¬ fixedobj_page_obj_align 3 samplePages 0 ≤ 255 ∧
    fixedobj_page_obj_size samplePages 0 = 4 := by
  decide

/-- C17, amended: for every immobile page `i`, both values are derived from the
packed attributes of the page alone (pages with equal attributes give equal
values, whatever `free_index`, `prior_gc_free_word_index` and `page_link` are);
`fixedobj_page_obj_size(i)` is the `obj_size` byte, in words, at most 255;
`fixedobj_page_obj_align(i)` is the `obj_align` byte (words, at most 255)
shifted left by `WORD_SHIFT`, so it counts bytes and is at most
`255 * 2 ^ WORD_SHIFT`. -/
theorem fixedobj_page_attributes (WORD_SHIFT : Nat) (fixedobj_pages : Int → fixedobj_page)
    (i : Int) :
    fixedobj_page_obj_size fixedobj_pages i = (fixedobj_pages i).attr.obj_size % 256 ∧
    fixedobj_page_obj_size fixedobj_pages i ≤ 255 ∧
    fixedobj_page_obj_align WORD_SHIFT fixedobj_pages i
      = ((fixedobj_pages i).attr.obj_align % 256) * 2 ^ WORD_SHIFT ∧
    fixedobj_page_obj_align WORD_SHIFT fixedobj_pages i ≤ 255 * 2 ^ WORD_SHIFT ∧
    (∀ other : Int → fixedobj_page, (other i).attr = (fixedobj_pages i).attr →
      fixedobj_page_obj_size other i = fixedobj_page_obj_size fixedobj_pages i ∧
      fixedobj_page_obj_align WORD_SHIFT other i
        = fixedobj_page_obj_align WORD_SHIFT fixedobj_pages i) := by
  have hsize : (fixedobj_pages i).attr.obj_size % 256 ≤ 255 :=
    Nat.le_of_lt_succ (Nat.mod_lt _ (by decide))
  have halign : (fixedobj_pages i).attr.obj_align % 256 ≤ 255 :=
    Nat.le_of_lt_succ (Nat.mod_lt _ (by decide))
  refine ⟨rfl, hsize, ?_, ?_, ?_⟩
  · unfold fixedobj_page_obj_align
    rw [Nat.shiftLeft_eq]
  · unfold fixedobj_page_obj_align
    rw [Nat.shiftLeft_eq]
    exact Nat.mul_le_mul_right _ halign
  · intro other hattr
    unfold fixedobj_page_obj_size fixedobj_page_obj_align
    rw [hattr]
    exact ⟨rfl, rfl⟩

/-- Instance of the amended C17: a page with the attributes of `samplePages` but
other bookkeeping fields has the same size, 4 words, and the same alignment,
256 bytes. -/
theorem fixedobj_page_attributes_witness :
    fixedobj_page_obj_size
      (fun _ => { samplePages 0 with free_index := 96, page_link := 7 }) 0 = 4 ∧
    fixedobj_page_obj_align 3
      (fun _ => { samplePages 0 with free_index := 96, page_link := 7 }) 0 = 256 :=
  ⟨((fixedobj_page_attributes 3 samplePages 0).2.2.2.2
      (fun _ => { samplePages 0 with free_index := 96, page_link := 7 }) rfl).1.trans
      (by decide),
    ((fixedobj_page_attributes 3 samplePages 0).2.2.2.2
      (fun _ => { samplePages 0 with free_index := 96, page_link := 7 }) rfl).2.trans
      (by decide)⟩

/-! ## Pin granularity -/

/-- C18, the code at a failing input: the build is compiled with
`-DPIN_GRANULARITY_LISPOBJ=0`, yet the `#ifdef` of line 199 holds and `pinned_p`
is the function: on `pinnedState` it returns true for the pinned object, and
`from_space_p` is false although the page of the object is found and its `gen`
equals `from_space`. -/
theorem pinned_p_granularity_zero :
    PIN_GRANULARITY_LISPOBJ noPinBuild = some 0 ∧
    pinned_p noPinBuild (pinnedState 1 2 0x1000000017) 0x1000000017 0 = some true ∧
    find_page_index noPinBuild (pinnedState 1 2 0x1000000017) 0x1000000017 = 0 ∧
    ((pinnedState 1 2 0x1000000017).page_table 0).gen
      = (pinnedState 1 2 0x1000000017).from_space ∧
    from_space_p noPinBuild (pinnedState 1 2 0x1000000017) 0x1000000017 = some false := by
  decide

/-! ## From-space against new-space -/

/-- C19: under `compacting_p()`, if `from_space != new_space` then
`from_space_p(obj)` and `new_space_p(obj)` are never both true, and if
`from_space == new_space` then `from_space_p(obj)` implies `new_space_p(obj)`. -/
theorem space_classification_unambiguous (b : Build) (s : GcState) (obj : Nat)
    (hc : 0 ≤ s.from_space) :
    (s.from_space ≠ s.new_space →
      ¬ (from_space_p b s obj = some true ∧ new_space_p b s obj = some true)) ∧
    (s.from_space = s.new_space →
      from_space_p b s obj = some true → new_space_p b s obj = some true) := by
  obtain ⟨r, hr⟩ := pinned_p_total b s obj (find_page_index b s obj) hc
  have hfrom : from_space_p b s obj = some true →
      0 ≤ find_page_index b s obj ∧
        (s.page_table (find_page_index b s obj)).gen = s.from_space := by
    intro h
    rw [from_space_p_eq b s obj hc r hr] at h
    by_contra hcond
    rw [if_neg hcond] at h
    exact absurd h (by decide)
  refine ⟨?_, ?_⟩
  · rintro hne ⟨h1, h2⟩
    rw [new_space_p_eq b s obj hc] at h2
    have hnew := of_decide_eq_true (Option.some.inj h2)
    exact hne ((hfrom h1).2.symm.trans hnew.2)
  · intro heq h1
    rw [new_space_p_eq b s obj hc]
    exact congrArg some (decide_eq_true ⟨(hfrom h1).1, (hfrom h1).2.trans heq⟩)

/-- Witness of C19: in the sample state with `from_space = 1` and
`new_space = 2` the object at the heap base is in from-space and not in
new-space; with both markers 1 it is in both. -/
theorem space_classification_unambiguous_witness :
    from_space_p (sampleBuild 0 true) (sampleState 2 1 2) 0x1000000000 = some true ∧
    ¬ (from_space_p (sampleBuild 0 true) (sampleState 2 1 2) 0x1000000000 = some true ∧
      new_space_p (sampleBuild 0 true) (sampleState 2 1 2) 0x1000000000 = some true) ∧
    new_space_p (sampleBuild 0 true) (sampleState 2 1 1) 0x1000000000 = some true :=
  ⟨by decide,
    (space_classification_unambiguous (sampleBuild 0 true) (sampleState 2 1 2) 0x1000000000
      (by decide)).1 (by decide),
    (space_classification_unambiguous (sampleBuild 0 true) (sampleState 2 1 1) 0x1000000000
      (by decide)).2 (by decide) (by decide)⟩

/-! ## Precise against conservative pinning -/

/-- The value of `pinned_p` on a conservative build, guard included. -/
theorem pinned_p_conservative_eq (b : Build) (s : GcState) (obj : Nat) (p : Int)
    (hcons : b.GENCGC_IS_PRECISE = 0) :
    pinned_p b s obj p =
      if (b.gc_dcheck_active && !compacting_p s) = true then none
      else some (page_has_smallobj_pins s p && hopscotch_containsp s.pinned_objects obj) := by
  obtain ⟨v, hv⟩ := PIN_GRANULARITY_LISPOBJ_defined b
  unfold pinned_p pinned_p_run
  rw [hv]
  simp only [hcons]
  by_cases hg : (b.gc_dcheck_active && !compacting_p s) = true
  · simp only [hg, if_true, Option.map_none']
  · by_cases he : page_has_smallobj_pins s p = true
    · simp [hg, he]
    · simp [hg, he]

/-- The value of `pinned_p` on a precise build, guard included. -/
theorem pinned_p_precise_eq (b : Build) (s : GcState) (obj : Nat) (p : Int)
    (hprec : b.GENCGC_IS_PRECISE ≠ 0) :
    pinned_p b s obj p =
      if (b.gc_dcheck_active && !compacting_p s) = true then none
      else if s.pinned_objects.count = 0 ∨ page_has_smallobj_pins s p = false then some false
      else some (hopscotch_containsp s.pinned_objects (pin_lookup_key b s obj)) := by
  obtain ⟨v, hv⟩ := PIN_GRANULARITY_LISPOBJ_defined b
  unfold pinned_p pinned_p_run
  rw [hv]
  simp only [if_neg hprec]
  by_cases hg : (b.gc_dcheck_active && !compacting_p s) = true
  · simp only [hg, if_true, Option.map_none']
  · by_cases he : s.pinned_objects.count = 0 ∨ page_has_smallobj_pins s p = false
    · simp [hg, if_pos he]
    · simp [hg, if_neg he]

/-- With a count that is 0 only for a table without members, the fast reject of
the precise variant gives what the conservative conjunction gives. -/
theorem precise_reject_eq (s : GcState) (p : Int) (key : Nat)
    (hcount : s.pinned_objects.count = 0 → s.pinned_objects.keys = []) :
    (if s.pinned_objects.count = 0 ∨ page_has_smallobj_pins s p = false then some false
      else some (hopscotch_containsp s.pinned_objects key))
      = some (page_has_smallobj_pins s p && hopscotch_containsp s.pinned_objects key) := by
  by_cases h0 : s.pinned_objects.count = 0
  · have hnone : hopscotch_containsp s.pinned_objects key = false := by
      unfold hopscotch_containsp
      rw [hcount h0]
      simp
    rw [if_pos (Or.inl h0), hnone, Bool.and_false]
  · by_cases he : page_has_smallobj_pins s p = false
    · rw [if_pos (Or.inr he), he, Bool.false_and]
    · have het : page_has_smallobj_pins s p = true := by simpa using he
      rw [if_neg (by simp [h0, het]), het, Bool.true_and]

/-- C20: the precise and the conservative variant of `pinned_p` agree.  Assuming
`pinned_objects.count == 0` exactly when the set has no members, for every page
`p` and every object whose header widetag is not `RETURN_PC_WIDETAG` the
`GENCGC_IS_PRECISE = 1` build returns what the `GENCGC_IS_PRECISE = 0` build
returns; for a return-address object the precise build returns what the
conservative build returns on the tagged reference to the owning code object,
with the same page. -/
theorem pinned_p_precise_conservative (b : Build) (s : GcState) (obj : Nat) (p : Int)
    (hcount : s.pinned_objects.count = 0 ↔ s.pinned_objects.keys = []) :
    ((∀ t, b.RETURN_PC_WIDETAG = some t →
        b.widetag_of (s.heap (b.native_pointer obj)) ≠ t) →
      pinned_p { b with GENCGC_IS_PRECISE := 1 } s obj p
        = pinned_p { b with GENCGC_IS_PRECISE := 0 } s obj p) ∧
    (∀ t, b.RETURN_PC_WIDETAG = some t →
        b.widetag_of (s.heap (b.native_pointer obj)) = t →
      pinned_p { b with GENCGC_IS_PRECISE := 1 } s obj p
        = pinned_p { b with GENCGC_IS_PRECISE := 0 } s
            (b.make_lispobj (b.fun_code_header s.heap (b.native_pointer obj))
              b.OTHER_POINTER_LOWTAG) p) := by
  have hp := pinned_p_precise_eq { b with GENCGC_IS_PRECISE := 1 } s obj p
    Nat.one_ne_zero
  have hkey : pin_lookup_key { b with GENCGC_IS_PRECISE := 1 } s obj
      = pin_lookup_key b s obj := rfl
  rw [hkey, precise_reject_eq s p _ hcount.mp] at hp
  refine ⟨?_, ?_⟩
  · intro hne
    have hobj : pin_lookup_key b s obj = obj := by
      unfold pin_lookup_key
      cases ht : b.RETURN_PC_WIDETAG with
      | none => rfl
      | some t => simp only [if_neg (hne t ht)]
    rw [hp, hobj, pinned_p_conservative_eq { b with GENCGC_IS_PRECISE := 0 } s obj p rfl]
  · intro t ht hw
    have hcode : pin_lookup_key b s obj
        = b.make_lispobj (b.fun_code_header s.heap (b.native_pointer obj))
            b.OTHER_POINTER_LOWTAG := by
      unfold pin_lookup_key
      rw [ht]
      simp only [if_pos hw]
    rw [hp, hcode, pinned_p_conservative_eq { b with GENCGC_IS_PRECISE := 0 } s _ p rfl]

/-- Witness of C20 on `returnPcState` (one pinned reference, count 1): for the
tagged code object the two builds agree, and for the return address
`0x1000000025` the precise build gives what the conservative build gives on the
tagged code object `0x100000001F`, namely true. -/
theorem pinned_p_precise_conservative_witness :
    pinned_p { sampleBuild 0 true with GENCGC_IS_PRECISE := 1 } returnPcState 0x100000001F 0
      = pinned_p { sampleBuild 0 true with GENCGC_IS_PRECISE := 0 } returnPcState
          0x100000001F 0 ∧
    pinned_p { sampleBuild 0 true with GENCGC_IS_PRECISE := 1 } returnPcState 0x1000000025 0
      = some true ∧
    pinned_p { sampleBuild 0 true with GENCGC_IS_PRECISE := 0 } returnPcState 0x1000000025 0
      = some false :=
  ⟨(pinned_p_precise_conservative (sampleBuild 0 true) returnPcState 0x100000001F 0
      (by decide)).1 (fun t ht => by
        have h36 : t = 0x36 := (Option.some.inj ht).symm
        subst h36
        decide),
    ((pinned_p_precise_conservative (sampleBuild 0 true) returnPcState 0x1000000025 0
      (by decide)).2 0x36 rfl (by decide)).trans (by decide),
    by decide⟩

/-! ## Page eligibility for small-object pins -/

/-- The function `pinned_p` in every build and state: the guard, then the body
of the function. -/
theorem pinned_p_run_guarded (b : Build) (s : GcState) (obj : Nat) (page : Int) :
    pinned_p_run b s obj page =
      if (b.gc_dcheck_active && !compacting_p s) = true then none
      else if b.GENCGC_IS_PRECISE = 0 then
        if page_has_smallobj_pins s page then
          some (hopscotch_containsp s.pinned_objects obj, [Access.containsp obj])
        else some (false, [])
      else
        if s.pinned_objects.count = 0 ∨ page_has_smallobj_pins s page = false then
          some (false, [])
        else
          some (hopscotch_containsp s.pinned_objects (pin_lookup_key b s obj),
            pin_header_reads b obj ++ [Access.containsp (pin_lookup_key b s obj)]) := by
  obtain ⟨v, hv⟩ := PIN_GRANULARITY_LISPOBJ_defined b
  unfold pinned_p_run
  rw [hv]

/-- On a page without small-object pins `pinned_p` gets past its guard and then
rejects at once: no lookup, no header read, whatever the table holds. -/
theorem pinned_p_run_of_no_pins (b : Build) (s : GcState) (obj : Nat) (page : Int)
    (hno : page_has_smallobj_pins s page = false) :
    pinned_p_run b s obj page =
      if (b.gc_dcheck_active && !compacting_p s) = true then none else some (false, []) := by
  rw [pinned_p_run_guarded, hno]
  by_cases hg : (b.gc_dcheck_active && !compacting_p s) = true
  · rw [if_pos hg, if_pos hg]
  · rw [if_neg hg, if_neg hg]
    by_cases hprec : b.GENCGC_IS_PRECISE = 0
    · rw [if_pos hprec]
      rfl
    · rw [if_neg hprec, if_pos (Or.inr rfl)]

/-- The guard passes in a release build and, in a debug build, under
`compacting_p()`. -/
theorem dcheck_pass_of_imp (b : Build) (s : GcState)
    (hguard : b.gc_dcheck_active = true → 0 ≤ s.from_space) :
    ¬ (b.gc_dcheck_active && !compacting_p s) = true := by
  intro hfail
  cases hd : b.gc_dcheck_active with
  | false => simp [hd] at hfail
  | true => simp [compacting_p, hd, hguard hd] at hfail

/-- C6 (page eligibility for small-object pins): in a state that keeps the
free-page condition of `struct page`, for every object `obj` and page index `p`
of the table, `pinned_p` consults the pinned-objects set only if page `p` is
allocated, is not a large-object page and has its `dont_move` bit set; so
whenever page `p` is free (`allocated == 0`), or has `large_object` set, or has
`dont_move` clear, `pinned_p(obj, p)` never returns true and makes no lookup,
whatever the pinned-objects set contains, and it returns false as soon as its
`gc_dcheck` passes (release build, or `compacting_p()`). -/
theorem pinned_p_page_eligibility (b : Build) (s : GcState) (obj : Nat) (p : Int)
    (hinv : free_page_invariant s) (hp0 : 0 ≤ p) (hpN : p < s.page_table_pages) :
    (∀ (r : Bool) (log : List Access) (k : Nat),
      pinned_p_run b s obj p = some (r, log) → Access.containsp k ∈ log →
      (s.page_table p).allocated ≠ 0 ∧ (s.page_table p).large_object = false ∧
        (s.page_table p).dont_move = true) ∧
    (((s.page_table p).allocated = 0 ∨ (s.page_table p).large_object = true ∨
        (s.page_table p).dont_move = false) →
      ∀ pins : hopscotch_table,
        pinned_p b { s with pinned_objects := pins } obj p ≠ some true ∧
        (∀ (r : Bool) (log : List Access),
          pinned_p_run b { s with pinned_objects := pins } obj p = some (r, log) →
          r = false ∧ log = []) ∧
        ((b.gc_dcheck_active = true → 0 ≤ s.from_space) →
          pinned_p_run b { s with pinned_objects := pins } obj p = some (false, []) ∧
          pinned_p b { s with pinned_objects := pins } obj p = some false)) := by
  have hfree : (s.page_table p).allocated = 0 → (s.page_table p).dont_move = false :=
    fun h0 => (hinv p hp0 hpN h0).2.2.2.2.1
  refine ⟨?_, ?_⟩
  · intro r log k hrun hk
    by_cases helig : page_has_smallobj_pins s p = true
    · unfold page_has_smallobj_pins at helig
      have hbits : (s.page_table p).dont_move = true ∧ (s.page_table p).large_object = false := by
        simpa using helig
      refine ⟨fun h0 => ?_, hbits.2, hbits.1⟩
      rw [hfree h0] at hbits
      exact absurd hbits.1 (by decide)
    · have hno : page_has_smallobj_pins s p = false := by simpa using helig
      rw [pinned_p_run_of_no_pins b s obj p hno] at hrun
      by_cases hg : (b.gc_dcheck_active && !compacting_p s) = true
      · rw [if_pos hg] at hrun
        exact absurd hrun (by simp)
      · rw [if_neg hg] at hrun
        have hlog : log = [] := (congrArg Prod.snd (Option.some.inj hrun)).symm
        rw [hlog] at hk
        exact absurd hk (List.not_mem_nil _)
  · intro hpage pins
    have hno : page_has_smallobj_pins { s with pinned_objects := pins } p = false := by
      unfold page_has_smallobj_pins
      rcases hpage with h | h | h
      · simp [hfree h]
      · simp [h]
      · simp [h]
    have hrun := pinned_p_run_of_no_pins b { s with pinned_objects := pins } obj p hno
    have hguard_same : compacting_p { s with pinned_objects := pins } = compacting_p s := rfl
    rw [hguard_same] at hrun
    refine ⟨?_, ?_, ?_⟩
    · unfold pinned_p
      rw [hrun]
      by_cases hg : (b.gc_dcheck_active && !compacting_p s) = true
      · rw [if_pos hg]
        simp
      · rw [if_neg hg]
        simp
    · intro r log hsome
      rw [hrun] at hsome
      by_cases hg : (b.gc_dcheck_active && !compacting_p s) = true
      · rw [if_pos hg] at hsome
        exact absurd hsome (by simp)
      · rw [if_neg hg] at hsome
        have hpair := Option.some.inj hsome
        exact ⟨(congrArg Prod.fst hpair).symm, (congrArg Prod.snd hpair).symm⟩
    · intro hguard
      have hval : pinned_p_run b { s with pinned_objects := pins } obj p = some (false, []) := by
        rw [hrun, if_neg (dcheck_pass_of_imp b s hguard)]
      exact ⟨hval, by rw [pinned_p, hval]; rfl⟩

/-- Witness of C6: page 1 of the sample state is free and lies in the table; with
the first byte of that page recorded in the pinned set, `pinned_p` makes no
lookup and returns false. -/
theorem pinned_p_page_eligibility_witness :
    ((sampleState 2 1 2).page_table 1).allocated = 0 ∧
    hopscotch_containsp ⟨1, [0x1000001000]⟩ 0x1000001000 = true ∧
    pinned_p_run (sampleBuild 0 true)
      { sampleState 2 1 2 with pinned_objects := ⟨1, [0x1000001000]⟩ } 0x1000001000 1
      = some (false, []) :=
  ⟨by decide, by decide,
    (((pinned_p_page_eligibility (sampleBuild 0 true) (sampleState 2 1 2) 0x1000001000 1
      (sampleState_free_page_invariant 2 1 2) (by decide) (by decide)).2
      (Or.inl (by decide)) ⟨1, [0x1000001000]⟩).2.2 (fun _ => by decide)).1⟩

end Gencgc
